import Mathlib

/-!
Verification of the artificial-life particle simulation core.

This file gives a shallow embedding, in Lean 4, of the parts of the
JavaScript sources that the specification claims are about:

* the per-particle force and integration code of Particle.js
  (calculateForce, clampAcceleration, clampVelocity, update);
* the Quadtree spatial index (Rectangle.contains, Quadtree.insert,
  Quadtree.subdivide, Quadtree.queryCircle);
* the PhysicsEngine collision pipeline (checkCollision, processCollision,
  calculateForcesBruteForce, update);
* the RuleManager history and import logic (saveToHistory, undo, redo,
  importRules);
* the ParticlePool lifecycle (initialize, getParticle, returnParticle).

JavaScript numbers are modelled as real numbers (the quadtree and the pool,
which use only comparisons, additions and halvings, are modelled over the
rationals so that they stay fully computable).  Math.random is modelled as
an explicit stream of values in the interval from zero to one.  A JavaScript
computation that can throw is modelled with Except.
-/

namespace ALife

/-! ### Options and rules

The defaulted option reads of the source (for example
options.maxDistance || 80) are modelled by a record of already-resolved
values; defaultOptions below carries the defaults of
PARTICLE_CONFIG.defaultOptions in Config.js. -/

/-- Resolved physics options, mirroring PARTICLE_CONFIG.defaultOptions. -/
structure Options where
  size : ℝ
  friction : ℝ
  bounceDecay : ℝ
  maxAcceleration : ℝ
  maxVelocity : ℝ
  maxDistance : ℝ
  collisionDistanceRatio : ℝ
  forceMultiplier : ℝ
  minDistanceToEdges : ℝ
  edgeRepulsionForce : ℝ
  enableVelocityClamp : Bool
  enableAccelerationClamp : Bool
  useQuadtree : Bool
  quadtreeCapacity : Nat

/-- Default options from PARTICLE_CONFIG.defaultOptions (Config.js). -/
noncomputable def defaultOptions : Options where
  size := 2
  friction := 0.9
  bounceDecay := 0.8
  maxAcceleration := 0.5
  maxVelocity := 8.0
  maxDistance := 80
  collisionDistanceRatio := 2.0
  forceMultiplier := 0.1
  minDistanceToEdges := 50
  edgeRepulsionForce := 0.9
  enableVelocityClamp := true
  enableAccelerationClamp := true
  useQuadtree := true
  quadtreeCapacity := 8

/-- One entry of a rule's createParticles list. -/
structure Creation where
  type : String
  count : Nat
deriving DecidableEq

/-- An interaction rule for an ordered pair of particle types. -/
structure Rule where
  closeForce : ℝ
  farForce : ℝ
  threshold : ℝ
  destroyOriginals : Bool
  createParticles : List Creation

/-- The rules object: a JavaScript nested map from source type to target
type to rule.  A missing property is modelled by none. -/
def Rules : Type := String → Option (String → Option Rule)

/-- The inline fallback rule of Particle.calculateForce: closeForce 0,
farForce 0, threshold 30.  The JS object literal leaves the collision
fields undefined; they are not read on this path, so the values chosen
here are immaterial. -/
def fallbackRule : Rule :=
  { closeForce := 0, farForce := 0, threshold := 30
    destroyOriginals := false, createParticles := [] }

/-! ### Particle state (Particle.js) -/

/-- Mutable state of a Particle (Particle.js).  The id, colors and types
fields of the source are rendering bookkeeping and do not enter any of
the claims; they are omitted. -/
structure Particle where
  x : ℝ
  y : ℝ
  vx : ℝ
  vy : ℝ
  fx : ℝ
  fy : ℝ
  type : String
  size : ℝ
  friction : ℝ
  bounceDecay : ℝ
  maxAcceleration : ℝ
  maxVelocity : ℝ
  collisionCooldown : Nat
  options : Options

/-- A force vector as returned by Particle.calculateForce. -/
structure Force where
  fx : ℝ
  fy : ℝ

/-- Particle.calculateForce (Particle.js lines 34-83), as the pure force
value it returns.  The onCollision call embedded in the source is a no-op
in the module build (every one of its typeof guards sees an undefined
global), so it does not affect the returned force.  When the rules object
has no entry for the source type, the source expression
rules[this.type][otherParticle.type] throws a TypeError; this is the
Except.error case. -/
noncomputable def calculateForce (p other : Particle) (rules : Rules)
    (options : Options) : Except Unit Force :=
  let dx := other.x - p.x
  let dy := other.y - p.y
  let distance := Real.sqrt (dx * dx + dy * dy)
  let maxDistance := options.maxDistance
  let forceMultiplier := options.forceMultiplier
  if distance = 0 ∨ distance > maxDistance then
    .ok { fx := 0, fy := 0 }
  else
    match rules p.type with
    | none => .error ()
    | some inner =>
      let rule := (inner other.type).getD fallbackRule
      let nx := dx / distance
      let ny := dy / distance
      let falloff := 1 - distance / maxDistance
      let force := if distance < rule.threshold then rule.closeForce
        else rule.farForce
      let collisionDistance :=
        (p.size + other.size) * options.collisionDistanceRatio
      let collisionForce :=
        if distance < collisionDistance then
          -3 * (1 - distance / collisionDistance)
        else 0
      let finalForce := (force * falloff + collisionForce) * forceMultiplier
      .ok { fx := finalForce * nx, fy := finalForce * ny }

/-- Particle.resetForces. -/
def Particle.resetForces (p : Particle) : Particle :=
  { p with fx := 0, fy := 0 }

/-- Particle.applyForce. -/
def Particle.applyForce (p : Particle) (force : Force) : Particle :=
  { p with fx := p.fx + force.fx, fy := p.fy + force.fy }

/-- Particle.clampAcceleration. -/
noncomputable def Particle.clampAcceleration (p : Particle) : Particle :=
  let accelerationMagnitude := Real.sqrt (p.fx * p.fx + p.fy * p.fy)
  if accelerationMagnitude > p.maxAcceleration then
    let scale := p.maxAcceleration / accelerationMagnitude
    { p with fx := p.fx * scale, fy := p.fy * scale }
  else p

/-- Particle.clampVelocity. -/
noncomputable def Particle.clampVelocity (p : Particle) : Particle :=
  let velocityMagnitude := Real.sqrt (p.vx * p.vx + p.vy * p.vy)
  if velocityMagnitude > p.maxVelocity then
    let scale := p.maxVelocity / velocityMagnitude
    { p with vx := p.vx * scale, vy := p.vy * scale }
  else p

/-- Particle.update (Particle.js lines 267-294): cooldown decrement,
optional acceleration clamp, force integration, optional velocity clamp,
friction, position integration.  The canvas arguments are unused by the
source body as well. -/
noncomputable def Particle.update (p : Particle)
    (canvasWidth canvasHeight : ℝ) : Particle :=
  let p := if p.collisionCooldown > 0 then
    { p with collisionCooldown := p.collisionCooldown - 1 } else p
  let p := if p.options.enableAccelerationClamp then p.clampAcceleration else p
  let p := { p with vx := p.vx + p.fx, vy := p.vy + p.fy }
  let p := if p.options.enableVelocityClamp then p.clampVelocity else p
  let p := { p with vx := p.vx * p.friction, vy := p.vy * p.friction }
  { p with x := p.x + p.vx, y := p.y + p.vy }

/-- Particle.getSpeed. -/
noncomputable def Particle.getSpeed (p : Particle) : ℝ :=
  Real.sqrt (p.vx * p.vx + p.vy * p.vy)

/-! ### Helper lemmas about the clamp steps -/

/-- Evaluation helper: the square root of a nonnegative perfect square. -/
theorem sqrt_eval {a b : ℝ} (hb : 0 ≤ b) (h : b ^ 2 = a) :
    Real.sqrt a = b := by
  rw [← h, Real.sqrt_sq hb]

/-- Scaling both components scales the Euclidean norm by the absolute
value of the factor. -/
theorem sqrt_scale (a b c : ℝ) :
    Real.sqrt ((a * c) * (a * c) + (b * c) * (b * c)) =
      |c| * Real.sqrt (a * a + b * b) := by
  have h : (a * c) * (a * c) + (b * c) * (b * c) = c ^ 2 * (a * a + b * b) := by
    ring
  rw [h, Real.sqrt_mul (sq_nonneg c), Real.sqrt_sq_eq_abs]

@[simp] theorem clampAcceleration_x (p : Particle) :
    p.clampAcceleration.x = p.x := by
  unfold Particle.clampAcceleration; simp only []; split <;> rfl

@[simp] theorem clampAcceleration_y (p : Particle) :
    p.clampAcceleration.y = p.y := by
  unfold Particle.clampAcceleration; simp only []; split <;> rfl

@[simp] theorem clampAcceleration_vx (p : Particle) :
    p.clampAcceleration.vx = p.vx := by
  unfold Particle.clampAcceleration; simp only []; split <;> rfl

@[simp] theorem clampAcceleration_vy (p : Particle) :
    p.clampAcceleration.vy = p.vy := by
  unfold Particle.clampAcceleration; simp only []; split <;> rfl

@[simp] theorem clampAcceleration_friction (p : Particle) :
    p.clampAcceleration.friction = p.friction := by
  unfold Particle.clampAcceleration; simp only []; split <;> rfl

@[simp] theorem clampAcceleration_maxVelocity (p : Particle) :
    p.clampAcceleration.maxVelocity = p.maxVelocity := by
  unfold Particle.clampAcceleration; simp only []; split <;> rfl

@[simp] theorem clampAcceleration_options (p : Particle) :
    p.clampAcceleration.options = p.options := by
  unfold Particle.clampAcceleration; simp only []; split <;> rfl

@[simp] theorem clampAcceleration_collisionCooldown (p : Particle) :
    p.clampAcceleration.collisionCooldown = p.collisionCooldown := by
  unfold Particle.clampAcceleration; simp only []; split <;> rfl

@[simp] theorem clampVelocity_friction (p : Particle) :
    p.clampVelocity.friction = p.friction := by
  unfold Particle.clampVelocity; simp only []; split <;> rfl

@[simp] theorem clampVelocity_maxVelocity (p : Particle) :
    p.clampVelocity.maxVelocity = p.maxVelocity := by
  unfold Particle.clampVelocity; simp only []; split <;> rfl

/-- After Particle.clampVelocity, the speed is at most maxVelocity,
provided maxVelocity is nonnegative. -/
theorem getSpeed_clampVelocity_le (p : Particle) (hm : 0 ≤ p.maxVelocity) :
    p.clampVelocity.getSpeed ≤ p.maxVelocity := by
  unfold Particle.clampVelocity Particle.getSpeed
  by_cases h : Real.sqrt (p.vx * p.vx + p.vy * p.vy) > p.maxVelocity
  · have hpos : 0 < Real.sqrt (p.vx * p.vx + p.vy * p.vy) :=
      lt_of_le_of_lt hm h
    simp only [h, if_pos]
    rw [sqrt_scale]
    rw [abs_of_nonneg (div_nonneg hm (le_of_lt hpos))]
    rw [div_mul_cancel₀ _ (ne_of_gt hpos)]
  · simp only [h, if_neg, not_false_iff]
    exact le_of_not_gt h

/-- The Particle constructor of Particle.js, with every physics constant
taken from the options record (the source reads them with || defaults;
the options record here is already resolved). -/
noncomputable def mkParticle (x y : ℝ) (type : String) (options : Options) :
    Particle :=
  { x := x, y := y, vx := 0, vy := 0, fx := 0, fy := 0, type := type
    size := options.size, friction := options.friction
    bounceDecay := options.bounceDecay
    maxAcceleration := options.maxAcceleration
    maxVelocity := options.maxVelocity
    collisionCooldown := 0, options := options }

/-- The distance computed at the top of Particle.calculateForce. -/
noncomputable def pairDistance (p other : Particle) : ℝ :=
  Real.sqrt ((other.x - p.x) * (other.x - p.x) +
    (other.y - p.y) * (other.y - p.y))

/-! ### Claim C2: velocity clamping bounds the speed after update -/

/-- C2 (amended): with velocity clamping enabled, friction in the unit
interval and a nonnegative maxVelocity, one Particle.update leaves the
speed at most maxVelocity, for any accumulated forces. -/
theorem C2_speed_clamped_amended (p : Particle) (w h : ℝ)
    (hclamp : p.options.enableVelocityClamp = true)
    (hf0 : 0 ≤ p.friction) (hf1 : p.friction ≤ 1)
    (hm : 0 ≤ p.maxVelocity) :
    (p.update w h).getSpeed ≤ p.maxVelocity := by
  have key : ∀ q : Particle, q.friction = p.friction →
      q.maxVelocity = p.maxVelocity → q.options = p.options →
      (let p4 := if q.options.enableVelocityClamp then q.clampVelocity else q
       let p5 : Particle :=
         { p4 with vx := p4.vx * p4.friction, vy := p4.vy * p4.friction }
       ({ p5 with x := p5.x + p5.vx, y := p5.y + p5.vy } :
         Particle)).getSpeed ≤ p.maxVelocity := by
    intro q hqf hqm hqo
    simp only [hqo, hclamp, if_pos, Particle.getSpeed]
    rw [clampVelocity_friction, hqf, sqrt_scale, abs_of_nonneg hf0]
    have hs : Real.sqrt (q.clampVelocity.vx * q.clampVelocity.vx +
        q.clampVelocity.vy * q.clampVelocity.vy) ≤ p.maxVelocity := by
      have := getSpeed_clampVelocity_le q (by rw [hqm]; exact hm)
      rw [Particle.getSpeed] at this
      rw [← hqm]; exact this
    calc p.friction * Real.sqrt (q.clampVelocity.vx * q.clampVelocity.vx +
          q.clampVelocity.vy * q.clampVelocity.vy)
        ≤ Real.sqrt (q.clampVelocity.vx * q.clampVelocity.vx +
          q.clampVelocity.vy * q.clampVelocity.vy) :=
          mul_le_of_le_one_left (Real.sqrt_nonneg _) hf1
      _ ≤ p.maxVelocity := hs
  unfold Particle.update
  exact key _ (by by_cases hcd : p.collisionCooldown > 0 <;>
      by_cases hac : p.options.enableAccelerationClamp <;>
      simp [hcd, hac])
    (by by_cases hcd : p.collisionCooldown > 0 <;>
      by_cases hac : p.options.enableAccelerationClamp <;>
      simp [hcd, hac])
    (by by_cases hcd : p.collisionCooldown > 0 <;>
      by_cases hac : p.options.enableAccelerationClamp <;>
      simp [hcd, hac])

/-- A particle with friction -2 (which is at most 1), velocity clamping
enabled, speed 10 and maxVelocity 8. -/
noncomputable def pC2 : Particle :=
  { mkParticle 0 0 "A" defaultOptions with vx := 10, friction := -2 }

/-- C2 as stated is false: a particle with friction at most 1 (here -2)
and velocity clamping enabled ends one update with speed 16, which
exceeds its maxVelocity 8. -/
theorem C2_counterexample :
    pC2.options.enableVelocityClamp = true ∧ pC2.friction ≤ 1 ∧
    pC2.maxVelocity < (pC2.update 100 100).getSpeed := by
  refine ⟨rfl, by norm_num [pC2, mkParticle], ?_⟩
  have h0 : Real.sqrt (0 : ℝ) = 0 := Real.sqrt_zero
  have h100 : Real.sqrt (100 : ℝ) = 10 := sqrt_eval (by norm_num) (by norm_num)
  have h256 : Real.sqrt (256 : ℝ) = 16 := sqrt_eval (by norm_num) (by norm_num)
  norm_num [Particle.update, Particle.clampAcceleration, Particle.clampVelocity,
    Particle.getSpeed, pC2, mkParticle, defaultOptions, h0, h100, h256]

/-- A well-behaved particle for the C2 witness: friction 0.9, speed 10,
maxVelocity 8, clamping enabled. -/
noncomputable def pC2w : Particle :=
  { mkParticle 0 0 "A" defaultOptions with vx := 10 }

/-- Witness for the amended C2 at a concrete particle. -/
theorem C2_witness : (pC2w.update 100 100).getSpeed ≤ pC2w.maxVelocity :=
  C2_speed_clamped_amended pC2w 100 100 rfl
    (by norm_num [pC2w, mkParticle, defaultOptions])
    (by norm_num [pC2w, mkParticle, defaultOptions])
    (by norm_num [pC2w, mkParticle, defaultOptions])

/-! ### Claim C1: zero force at or beyond the interaction range -/

/-- C1 (amended): the pairwise force is exactly zero when the distance is
zero or exceeds maxDistance; at the boundary distance equal to
maxDistance it is zero as well, provided the collision distance
(sum of sizes times collisionDistanceRatio) does not exceed maxDistance
and the rules object has an entry for the source type. -/
theorem C1_force_zero_amended (p other : Particle) (rules : Rules)
    (options : Options)
    (hcases : (pairDistance p other = 0 ∨
        pairDistance p other > options.maxDistance) ∨
      (pairDistance p other = options.maxDistance ∧
        (p.size + other.size) * options.collisionDistanceRatio ≤
          options.maxDistance ∧
        (rules p.type).isSome = true)) :
    calculateForce p other rules options = .ok { fx := 0, fy := 0 } := by
  unfold calculateForce
  simp only [pairDistance] at hcases
  simp only []
  set d : ℝ := Real.sqrt ((other.x - p.x) * (other.x - p.x) +
    (other.y - p.y) * (other.y - p.y)) with hddef
  rcases hcases with hshort | ⟨hd, hcd, hsome⟩
  · rw [if_pos hshort]
  · by_cases hd0 : d = 0
    · rw [if_pos (Or.inl hd0)]
    · have hmax0 : options.maxDistance ≠ 0 := by
        intro hc
        exact hd0 (by rw [hd, hc])
      rw [if_neg (by push_neg; exact ⟨hd0, le_of_eq hd⟩)]
      obtain ⟨inner, hin⟩ := Option.isSome_iff_exists.mp hsome
      rw [hin]
      have hfall : 1 - d / options.maxDistance = 0 := by
        rw [hd, div_self hmax0]; ring
      have hcoll : ¬ (d < (p.size + other.size) *
          options.collisionDistanceRatio) := by
        rw [hd]; exact not_lt.mpr hcd
      simp only [hfall, hcoll, if_neg, if_false, mul_zero, zero_mul,
        add_zero, zero_add, ite_false]

/-- Rules table used in the C1 and C6 statements: a single entry for the
ordered pair of types A and B, carrying the neutral fallback rule. -/
def rulesC1 : Rules := fun t =>
  if t = "A" then
    some (fun u => if u = "B" then some fallbackRule else none)
  else none

/-- Particle of type A at the origin with size 50. -/
noncomputable def pC1a : Particle :=
  { mkParticle 0 0 "A" defaultOptions with size := 50 }

/-- Particle of type B at distance exactly maxDistance, with size 50. -/
noncomputable def pC1b : Particle :=
  { mkParticle 80 0 "B" defaultOptions with size := 50 }

/-- Options with collisionDistanceRatio 1, so that the collision distance
of the two size-50 particles is 100, larger than maxDistance 80. -/
noncomputable def optsC1 : Options :=
  { defaultOptions with collisionDistanceRatio := 1 }

/-- C1 as stated is false: at distance exactly maxDistance (80) with
collision distance 100, calculateForce returns the force (-3/50, 0),
whose magnitude 3/50 is not zero. -/
theorem C1_counterexample :
    pairDistance pC1a pC1b ≥ optsC1.maxDistance ∧
    calculateForce pC1a pC1b rulesC1 optsC1 =
      .ok { fx := -3 / 50, fy := 0 } ∧
    Real.sqrt ((-3 / 50 : ℝ) * (-3 / 50) + 0 * 0) ≠ 0 := by
  have h6400 : Real.sqrt (6400 : ℝ) = 80 := sqrt_eval (by norm_num) (by norm_num)
  have hmag : Real.sqrt ((-3 / 50 : ℝ) * (-3 / 50) + 0 * 0) = 3 / 50 := by
    rw [show ((-3 / 50 : ℝ) * (-3 / 50) + 0 * 0) = (3 / 50 : ℝ) ^ 2 by norm_num]
    exact Real.sqrt_sq (by norm_num)
  refine ⟨?_, ?_, by rw [hmag]; norm_num⟩
  · norm_num [pairDistance, pC1a, pC1b, mkParticle, optsC1, defaultOptions,
      h6400]
  · have hA : rulesC1 "A" =
        some (fun u => if u = "B" then some fallbackRule else none) := rfl
    norm_num [calculateForce, pC1a, pC1b, mkParticle, optsC1, defaultOptions,
      rulesC1, fallbackRule, h6400]

/-- Particle of type B far beyond the interaction range. -/
noncomputable def pC1w : Particle := mkParticle 100 0 "B" defaultOptions

/-- Witness for the amended C1: two default particles 100 apart (beyond
maxDistance 80) get exactly zero force. -/
theorem C1_witness :
    calculateForce (mkParticle 0 0 "A" defaultOptions) pC1w rulesC1
      defaultOptions = .ok { fx := 0, fy := 0 } :=
  C1_force_zero_amended _ _ _ _ (Or.inl (Or.inr (by
    have h : Real.sqrt (10000 : ℝ) = 100 := sqrt_eval (by norm_num) (by norm_num)
    norm_num [pairDistance, pC1w, mkParticle, defaultOptions, h])))

/-! ### Claim C6: missing rule entries -/

/-- C6 (amended): when the rules object has an entry for the source type
but that entry has no rule for the target type, calculateForce does not
raise an error and behaves exactly as if the pair had the neutral
fallback rule (closeForce 0, farForce 0, threshold 30). -/
theorem C6_missing_rule_neutral_amended (p other : Particle) (rules : Rules)
    (options : Options) (inner : String → Option Rule)
    (hsrc : rules p.type = some inner) (htgt : inner other.type = none) :
    (calculateForce p other rules options).isOk = true ∧
    calculateForce p other rules options =
      calculateForce p other
        (fun t => if t = p.type then
            some (fun u => if u = other.type then some fallbackRule
              else inner u)
          else rules t) options := by
  by_cases hshort : Real.sqrt ((other.x - p.x) * (other.x - p.x) +
      (other.y - p.y) * (other.y - p.y)) = 0 ∨
      Real.sqrt ((other.x - p.x) * (other.x - p.x) +
        (other.y - p.y) * (other.y - p.y)) > options.maxDistance
  all_goals refine ⟨?_, ?_⟩ <;>
    simp [calculateForce, hshort, hsrc, htgt, Except.isOk, Except.toBool]

/-- Two default particles of types A and B at distance 5, within range. -/
noncomputable def pC6a : Particle := mkParticle 0 0 "A" defaultOptions

/-- Second particle for the C6 counterexample. -/
noncomputable def pC6b : Particle := mkParticle 5 0 "B" defaultOptions

/-- C6 as stated is false: when the rules object has no entry at all for
the source type, calculateForce throws (a TypeError in the source,
modelled by Except.error) instead of treating the pair as neutral. -/
theorem C6_counterexample :
    calculateForce pC6a pC6b (fun _ => none) defaultOptions = .error () := by
  have h25 : Real.sqrt (25 : ℝ) = 5 := sqrt_eval (by norm_num) (by norm_num)
  norm_num [calculateForce, pC6a, pC6b, mkParticle, defaultOptions, h25]

/-- Rules table with a source entry for type A but no rule for target B. -/
def rulesC6 : Rules := fun t =>
  if t = "A" then some (fun _ => none) else none

/-! ### Quadtree (Quadtree.js)

The quadtree only ever reads the x and y fields of the particles it
stores, so particles are modelled here by their positions, over the
rationals (the source uses only comparisons, additions and halvings on
them, all exact).  The unbounded recursion of Quadtree.insert is modelled
with explicit fuel: a none result means the recursion depth exceeded the
fuel. -/

/-- A particle as seen by the quadtree: just a position. -/
structure QtParticle where
  x : ℚ
  y : ℚ
deriving DecidableEq

/-- Rectangle (Quadtree.js lines 3-28). -/
structure Rectangle where
  x : ℚ
  y : ℚ
  width : ℚ
  height : ℚ
deriving DecidableEq

/-- Rectangle.contains (Quadtree.js lines 11-18): half-open on the far
edges. -/
def Rectangle.contains (r : Rectangle) (particle : QtParticle) : Bool :=
  decide (particle.x ≥ r.x ∧ particle.x < r.x + r.width ∧
    particle.y ≥ r.y ∧ particle.y < r.y + r.height)

@[simp] theorem Rectangle.contains_iff (r : Rectangle) (p : QtParticle) :
    r.contains p = true ↔
      (r.x ≤ p.x ∧ p.x < r.x + r.width ∧ r.y ≤ p.y ∧ p.y < r.y + r.height) := by
  simp [Rectangle.contains]

/-- The northeast quadrant rectangle created by Quadtree.subdivide. -/
def neRect (b : Rectangle) : Rectangle :=
  { x := b.x + b.width / 2, y := b.y, width := b.width / 2, height := b.height / 2 }

/-- The northwest quadrant rectangle created by Quadtree.subdivide. -/
def nwRect (b : Rectangle) : Rectangle :=
  { x := b.x, y := b.y, width := b.width / 2, height := b.height / 2 }

/-- The southeast quadrant rectangle created by Quadtree.subdivide. -/
def seRect (b : Rectangle) : Rectangle :=
  { x := b.x + b.width / 2, y := b.y + b.height / 2
    width := b.width / 2, height := b.height / 2 }

/-- The southwest quadrant rectangle created by Quadtree.subdivide. -/
def swRect (b : Rectangle) : Rectangle :=
  { x := b.x, y := b.y + b.height / 2
    width := b.width / 2, height := b.height / 2 }

/-- A quadtree node.  The divided flag of the source corresponds to the
constructor: leaf is divided = false (all four subdivision slots null),
node is divided = true. -/
inductive Quadtree where
  | leaf (boundary : Rectangle) (capacity : Nat) (particles : List QtParticle)
  | node (boundary : Rectangle) (capacity : Nat) (particles : List QtParticle)
      (northeast northwest southeast southwest : Quadtree)
deriving DecidableEq

/-- Boundary of the root node of a quadtree. -/
def Quadtree.boundary : Quadtree → Rectangle
  | .leaf b _ _ => b
  | .node b _ _ _ _ _ _ => b

/-- Particles stored directly in the root node. -/
def Quadtree.particles : Quadtree → List QtParticle
  | .leaf _ _ ps => ps
  | .node _ _ ps _ _ _ _ => ps

/-- All particles stored anywhere in the tree. -/
def Quadtree.elems : Quadtree → List QtParticle
  | .leaf _ _ ps => ps
  | .node _ _ ps ne nw se sw =>
      ps ++ ne.elems ++ nw.elems ++ se.elems ++ sw.elems

/-- Quadtree.depth of the source (1 for an undivided node). -/
def Quadtree.depth : Quadtree → Nat
  | .leaf _ _ _ => 1
  | .node _ _ _ ne nw se sw =>
      1 + max (max ne.depth nw.depth) (max se.depth sw.depth)

/-- The insertion cascade into the four subdivisions, in source order
northeast, northwest, southeast, southwest.  The source expression is
a short-circuit or of the four child inserts; a child insert that
returns false leaves that child unchanged, so the original child is kept
on the false branches. -/
def Quadtree.tryChildren (ins : Quadtree → Option (Quadtree × Bool))
    (b : Rectangle) (cap : Nat) (ps : List QtParticle)
    (ne nw se sw : Quadtree) : Option (Quadtree × Bool) :=
  match ins ne with
  | none => none
  | some (ne2, true) => some (.node b cap ps ne2 nw se sw, true)
  | some (_, false) =>
    match ins nw with
    | none => none
    | some (nw2, true) => some (.node b cap ps ne nw2 se sw, true)
    | some (_, false) =>
      match ins se with
      | none => none
      | some (se2, true) => some (.node b cap ps ne nw se2 sw, true)
      | some (_, false) =>
        match ins sw with
        | none => none
        | some (sw2, true) => some (.node b cap ps ne nw se sw2, true)
        | some (_, false) => some (.node b cap ps ne nw se sw, false)

/-- Quadtree.insert (Quadtree.js lines 45-65) with explicit recursion
fuel.  Outside the boundary: return false.  Room in this node: push.
Otherwise subdivide if needed (Quadtree.subdivide, lines 68-85, creates
the four empty quadrant children) and cascade into the children. -/
def Quadtree.insert (fuel : Nat) (t : Quadtree) (particle : QtParticle) :
    Option (Quadtree × Bool) :=
  match fuel with
  | 0 => none
  | fuel + 1 =>
    match t with
    | .leaf b cap ps =>
      if b.contains particle = false then some (.leaf b cap ps, false)
      else if ps.length < cap then some (.leaf b cap (ps ++ [particle]), true)
      else
        Quadtree.tryChildren (fun c => Quadtree.insert fuel c particle)
          b cap ps (.leaf (neRect b) cap []) (.leaf (nwRect b) cap [])
          (.leaf (seRect b) cap []) (.leaf (swRect b) cap [])
    | .node b cap ps ne nw se sw =>
      if b.contains particle = false then
        some (.node b cap ps ne nw se sw, false)
      else if ps.length < cap then
        some (.node b cap (ps ++ [particle]) ne nw se sw, true)
      else
        Quadtree.tryChildren (fun c => Quadtree.insert fuel c particle)
          b cap ps ne nw se sw

/-- Quadtree.queryCircle (Quadtree.js lines 110-150): prune by the
squared distance from the circle center to the closest point of the
boundary, then test each stored particle by squared distance, then
recurse into the subdivisions, threading the found accumulator. -/
def Quadtree.queryCircle (t : Quadtree) (x y radius : ℚ)
    (found : List QtParticle) : List QtParticle :=
  match t with
  | .leaf b _ ps =>
    let closestX := max b.x (min x (b.x + b.width))
    let closestY := max b.y (min y (b.y + b.height))
    let dx := x - closestX
    let dy := y - closestY
    let distanceSquared := dx * dx + dy * dy
    if distanceSquared > radius * radius then found
    else
      found ++ ps.filter (fun particle =>
        (particle.x - x) * (particle.x - x) +
          (particle.y - y) * (particle.y - y) ≤ radius * radius)
  | .node b _ ps ne nw se sw =>
    let closestX := max b.x (min x (b.x + b.width))
    let closestY := max b.y (min y (b.y + b.height))
    let dx := x - closestX
    let dy := y - closestY
    let distanceSquared := dx * dx + dy * dy
    if distanceSquared > radius * radius then found
    else
      let found := found ++ ps.filter (fun particle =>
        (particle.x - x) * (particle.x - x) +
          (particle.y - y) * (particle.y - y) ≤ radius * radius)
      let found := ne.queryCircle x y radius found
      let found := nw.queryCircle x y radius found
      let found := se.queryCircle x y radius found
      sw.queryCircle x y radius found

/-- Building a quadtree from a particle list, as
PhysicsEngine.calculateForcesWithQuadtree does: insert every particle in
order, ignoring the boolean result. -/
def insertAll (fuel : Nat) (t : Quadtree) (ps : List QtParticle) :
    Option Quadtree :=
  match ps with
  | [] => some t
  | p :: rest =>
    match Quadtree.insert fuel t p with
    | none => none
    | some (t2, _) => insertAll fuel t2 rest

/-- Structural well-formedness maintained by insertion: particles stored
in a node lie inside its boundary, and the children of a divided node
carry exactly the four subdivision rectangles. -/
def Quadtree.WF : Quadtree → Prop
  | .leaf b _ ps => ∀ p ∈ ps, b.contains p = true
  | .node b _ ps ne nw se sw =>
      (∀ p ∈ ps, b.contains p = true) ∧
      ne.boundary = neRect b ∧ nw.boundary = nwRect b ∧
      se.boundary = seRect b ∧ sw.boundary = swRect b ∧
      ne.WF ∧ nw.WF ∧ se.WF ∧ sw.WF

/-- Every node of the tree has capacity at least one. -/
def Quadtree.CapPos : Quadtree → Prop
  | .leaf _ cap _ => 1 ≤ cap
  | .node _ cap _ ne nw se sw =>
      1 ≤ cap ∧ ne.CapPos ∧ nw.CapPos ∧ se.CapPos ∧ sw.CapPos

/-! ### Geometry of the quadrants -/

/-- A point inside the parent rectangle is inside at least one of the
four subdivision quadrants. -/
theorem quadrant_cover (b : Rectangle) (p : QtParticle)
    (h : b.contains p = true) :
    (neRect b).contains p = true ∨ (nwRect b).contains p = true ∨
    (seRect b).contains p = true ∨ (swRect b).contains p = true := by
  simp only [Rectangle.contains_iff, neRect, nwRect, seRect, swRect] at h ⊢
  obtain ⟨hx1, hx2, hy1, hy2⟩ := h
  rcases le_or_lt (b.x + b.width / 2) p.x with hx | hx <;>
    rcases le_or_lt (b.y + b.height / 2) p.y with hy | hy
  · exact Or.inr (Or.inr (Or.inl ⟨hx, by linarith, hy, by linarith⟩))
  · exact Or.inl ⟨hx, by linarith, hy1, hy⟩
  · exact Or.inr (Or.inr (Or.inr ⟨hx1, hx, hy, by linarith⟩))
  · exact Or.inr (Or.inl ⟨hx1, hx, hy1, hy⟩)

/-- Containment in the northeast quadrant implies containment in the
parent. -/
theorem contains_of_ne (b : Rectangle) (p : QtParticle)
    (h : (neRect b).contains p = true) : b.contains p = true := by
  simp only [Rectangle.contains_iff, neRect] at h ⊢
  obtain ⟨h1, h2, h3, h4⟩ := h
  refine ⟨by linarith, by linarith, by linarith, ?_⟩
  by_cases hh : 0 ≤ b.height
  · linarith
  · linarith

/-- Containment in the northwest quadrant implies containment in the
parent. -/
theorem contains_of_nw (b : Rectangle) (p : QtParticle)
    (h : (nwRect b).contains p = true) : b.contains p = true := by
  simp only [Rectangle.contains_iff, nwRect] at h ⊢
  obtain ⟨h1, h2, h3, h4⟩ := h
  exact ⟨h1, by linarith, h3, by linarith⟩

/-- Containment in the southeast quadrant implies containment in the
parent. -/
theorem contains_of_se (b : Rectangle) (p : QtParticle)
    (h : (seRect b).contains p = true) : b.contains p = true := by
  simp only [Rectangle.contains_iff, seRect] at h ⊢
  obtain ⟨h1, h2, h3, h4⟩ := h
  exact ⟨by linarith, by linarith, by linarith, by linarith⟩

/-- Containment in the southwest quadrant implies containment in the
parent. -/
theorem contains_of_sw (b : Rectangle) (p : QtParticle)
    (h : (swRect b).contains p = true) : b.contains p = true := by
  simp only [Rectangle.contains_iff, swRect] at h ⊢
  obtain ⟨h1, h2, h3, h4⟩ := h
  exact ⟨h1, by linarith, by linarith, by linarith⟩

/-- One-dimensional clamping: the clamped coordinate is at least as close
to the query coordinate as any point of the clamped interval. -/
theorem clamp_sq_le (lo hi v t : ℚ) (h1 : lo ≤ v) (h2 : v ≤ hi) :
    (t - max lo (min t hi)) * (t - max lo (min t hi)) ≤
      (v - t) * (v - t) := by
  rcases le_total t lo with h | h
  · have hmin : min t hi = t := min_eq_left (by linarith)
    have hmax : max lo t = lo := max_eq_left h
    rw [hmin, hmax]
    nlinarith [mul_nonneg (sub_nonneg.mpr h1)
      (by linarith : (0:ℚ) ≤ v + lo - 2 * t)]
  · rcases le_total t hi with h3 | h3
    · have hmin : min t hi = t := min_eq_left h3
      have hmax : max lo t = t := max_eq_right h
      rw [hmin, hmax]
      nlinarith [mul_self_nonneg (v - t)]
    · have hmin : min t hi = hi := min_eq_right h3
      have hmax : max lo hi = hi := max_eq_right (by linarith)
      rw [hmin, hmax]
      nlinarith [mul_nonneg (sub_nonneg.mpr h2)
        (by linarith : (0:ℚ) ≤ 2 * t - v - hi)]

/-- The squared distance from the query center to the closest point of a
rectangle bounds the squared distance to any particle inside it. -/
theorem closest_point_le (b : Rectangle) (q : QtParticle)
    (hq : b.contains q = true) (x y : ℚ) :
    (x - max b.x (min x (b.x + b.width))) *
        (x - max b.x (min x (b.x + b.width))) +
      (y - max b.y (min y (b.y + b.height))) *
        (y - max b.y (min y (b.y + b.height))) ≤
      (q.x - x) * (q.x - x) + (q.y - y) * (q.y - y) := by
  rw [Rectangle.contains_iff] at hq
  obtain ⟨hx1, hx2, hy1, hy2⟩ := hq
  have hx := clamp_sq_le b.x (b.x + b.width) q.x x hx1 (le_of_lt hx2)
  have hy := clamp_sq_le b.y (b.y + b.height) q.y y hy1 (le_of_lt hy2)
  have hrx : (q.x - x) * (q.x - x) = (x - q.x) * (x - q.x) := by ring
  have hry : (q.y - y) * (q.y - y) = (y - q.y) * (y - q.y) := by ring
  nlinarith [hx, hy]

/-! ### Characterization of the child-insert cascade -/

/-- Case analysis of Quadtree.tryChildren: either one of the four child
inserts succeeds, in source order, and the node is rebuilt with that
child replaced; or all four return false and the node is unchanged. -/
theorem tryChildren_spec (ins : Quadtree → Option (Quadtree × Bool))
    (b : Rectangle) (cap : Nat) (ps : List QtParticle)
    (ne nw se sw : Quadtree) (res : Quadtree × Bool)
    (hres : Quadtree.tryChildren ins b cap ps ne nw se sw = some res) :
    (∃ c, ins ne = some (c, true) ∧
      res = (.node b cap ps c nw se sw, true)) ∨
    (∃ c c2, ins ne = some (c, false) ∧ ins nw = some (c2, true) ∧
      res = (.node b cap ps ne c2 se sw, true)) ∨
    (∃ c c2 c3, ins ne = some (c, false) ∧ ins nw = some (c2, false) ∧
      ins se = some (c3, true) ∧ res = (.node b cap ps ne nw c3 sw, true)) ∨
    (∃ c c2 c3 c4, ins ne = some (c, false) ∧ ins nw = some (c2, false) ∧
      ins se = some (c3, false) ∧ ins sw = some (c4, true) ∧
      res = (.node b cap ps ne nw se c4, true)) ∨
    (∃ c c2 c3 c4, ins ne = some (c, false) ∧ ins nw = some (c2, false) ∧
      ins se = some (c3, false) ∧ ins sw = some (c4, false) ∧
      res = (.node b cap ps ne nw se sw, false)) := by
  unfold Quadtree.tryChildren at hres
  rcases hne : ins ne with _ | ⟨c1, tf1⟩ <;> rw [hne] at hres
  · exact absurd hres (by simp)
  cases tf1
  · rcases hnw : ins nw with _ | ⟨c2, tf2⟩ <;> rw [hnw] at hres
    · exact absurd hres (by simp)
    cases tf2
    · rcases hse : ins se with _ | ⟨c3, tf3⟩ <;> rw [hse] at hres
      · exact absurd hres (by simp)
      cases tf3
      · rcases hsw : ins sw with _ | ⟨c4, tf4⟩ <;> rw [hsw] at hres
        · exact absurd hres (by simp)
        cases tf4
        · refine Or.inr (Or.inr (Or.inr (Or.inr
            ⟨c1, c2, c3, c4, rfl, rfl, rfl, rfl, ?_⟩)))
          simpa using hres.symm
        · refine Or.inr (Or.inr (Or.inr (Or.inl
            ⟨c1, c2, c3, c4, rfl, rfl, rfl, rfl, ?_⟩)))
          simpa using hres.symm
      · refine Or.inr (Or.inr (Or.inl ⟨c1, c2, c3, rfl, rfl, rfl, ?_⟩))
        simpa using hres.symm
    · refine Or.inr (Or.inl ⟨c1, c2, rfl, rfl, ?_⟩)
      simpa using hres.symm
  · refine Or.inl ⟨c1, rfl, ?_⟩
    simpa using hres.symm

/-! ### Insertion lemmas -/

/-- Insertion never changes the boundary of the node it returns. -/
theorem insert_boundary (fuel : Nat) (t : Quadtree) (p : QtParticle)
    (t2 : Quadtree) (tf : Bool)
    (h : Quadtree.insert fuel t p = some (t2, tf)) :
    t2.boundary = t.boundary := by
  cases fuel with
  | zero => exact absurd h (by simp [Quadtree.insert])
  | succ fuel =>
    cases t with
    | leaf b cap ps =>
      simp only [Quadtree.insert] at h
      split at h
      · simp only [Option.some.injEq, Prod.mk.injEq] at h
        obtain ⟨rfl, rfl⟩ := h.symm
        rfl
      · split at h
        · simp only [Option.some.injEq, Prod.mk.injEq] at h
          obtain ⟨rfl, rfl⟩ := h.symm
          rfl
        · rcases tryChildren_spec _ _ _ _ _ _ _ _ _ h with
            ⟨c, _, hr⟩ | ⟨c, c2, _, _, hr⟩ | ⟨c, c2, c3, _, _, _, hr⟩ |
            ⟨c, c2, c3, c4, _, _, _, _, hr⟩ |
            ⟨c, c2, c3, c4, _, _, _, _, hr⟩ <;>
          · simp only [Prod.mk.injEq] at hr
            obtain ⟨rfl, rfl⟩ := hr
            rfl
    | node b cap ps ne nw se sw =>
      simp only [Quadtree.insert] at h
      split at h
      · simp only [Option.some.injEq, Prod.mk.injEq] at h
        obtain ⟨rfl, rfl⟩ := h.symm
        rfl
      · split at h
        · simp only [Option.some.injEq, Prod.mk.injEq] at h
          obtain ⟨rfl, rfl⟩ := h.symm
          rfl
        · rcases tryChildren_spec _ _ _ _ _ _ _ _ _ h with
            ⟨c, _, hr⟩ | ⟨c, c2, _, _, hr⟩ | ⟨c, c2, c3, _, _, _, hr⟩ |
            ⟨c, c2, c3, c4, _, _, _, _, hr⟩ |
            ⟨c, c2, c3, c4, _, _, _, _, hr⟩ <;>
          · simp only [Prod.mk.injEq] at hr
            obtain ⟨rfl, rfl⟩ := hr
            rfl

/-- Inserting a particle outside the root boundary returns false and
leaves the tree unchanged, for any positive fuel. -/
theorem insert_outside (fuel : Nat) (t : Quadtree) (p : QtParticle)
    (h : t.boundary.contains p = false) (hf : 1 ≤ fuel) :
    Quadtree.insert fuel t p = some (t, false) := by
  cases fuel with
  | zero => exact absurd hf (by norm_num)
  | succ fuel =>
    cases t with
    | leaf b cap ps =>
      simp only [Quadtree.boundary] at h
      simp [Quadtree.insert, h]
    | node b cap ps ne nw se sw =>
      simp only [Quadtree.boundary] at h
      simp [Quadtree.insert, h]

set_option maxHeartbeats 1600000 in
/-- Membership in the particles of the tree after an insertion: the new
tree holds exactly the old particles, plus the inserted one when the
insert returned true. -/
theorem insert_elems (fuel : Nat) :
    ∀ (t : Quadtree) (p : QtParticle) (t2 : Quadtree) (tf : Bool),
    Quadtree.insert fuel t p = some (t2, tf) →
    ∀ q, q ∈ t2.elems ↔ q ∈ t.elems ∨ (tf = true ∧ q = p) := by
  induction fuel with
  | zero => intro t p t2 tf h; exact absurd h (by simp [Quadtree.insert])
  | succ fuel ih =>
    intro t p t2 tf h q
    cases t with
    | leaf b cap ps =>
      simp only [Quadtree.insert] at h
      split at h
      · simp only [Option.some.injEq, Prod.mk.injEq] at h
        obtain ⟨rfl, rfl⟩ := h.symm
        simp [Quadtree.elems]
      · split at h
        · simp only [Option.some.injEq, Prod.mk.injEq] at h
          obtain ⟨rfl, rfl⟩ := h.symm
          simp [Quadtree.elems]
        · rcases tryChildren_spec _ _ _ _ _ _ _ _ _ h with
            ⟨c, hi, hr⟩ | ⟨c, c2, hi1, hi, hr⟩ |
            ⟨c, c2, c3, hi1, hi2, hi, hr⟩ |
            ⟨c, c2, c3, c4, hi1, hi2, hi3, hi, hr⟩ |
            ⟨c, c2, c3, c4, hi1, hi2, hi3, hi4, hr⟩ <;>
            (simp only [Prod.mk.injEq] at hr; obtain ⟨rfl, rfl⟩ := hr)
          · have hq := ih _ _ _ _ hi q
            simp only [Quadtree.elems, List.mem_append, List.not_mem_nil,
              List.mem_singleton, false_or, or_false, true_and] at hq
            simp only [Quadtree.elems, List.mem_append, List.not_mem_nil,
              List.mem_singleton, false_or, or_false, true_and, hq]
            try tauto
          · have hq := ih _ _ _ _ hi q
            simp only [Quadtree.elems, List.mem_append, List.not_mem_nil,
              List.mem_singleton, false_or, or_false, true_and] at hq
            simp only [Quadtree.elems, List.mem_append, List.not_mem_nil,
              List.mem_singleton, false_or, or_false, true_and, hq]
            try tauto
          · have hq := ih _ _ _ _ hi q
            simp only [Quadtree.elems, List.mem_append, List.not_mem_nil,
              List.mem_singleton, false_or, or_false, true_and] at hq
            simp only [Quadtree.elems, List.mem_append, List.not_mem_nil,
              List.mem_singleton, false_or, or_false, true_and, hq]
            try tauto
          · have hq := ih _ _ _ _ hi q
            simp only [Quadtree.elems, List.mem_append, List.not_mem_nil,
              List.mem_singleton, false_or, or_false, true_and] at hq
            simp only [Quadtree.elems, List.mem_append, List.not_mem_nil,
              List.mem_singleton, false_or, or_false, true_and, hq]
            try tauto
          · simp [Quadtree.elems]
    | node b cap ps ne nw se sw =>
      simp only [Quadtree.insert] at h
      split at h
      · simp only [Option.some.injEq, Prod.mk.injEq] at h
        obtain ⟨rfl, rfl⟩ := h.symm
        simp [Quadtree.elems]
      · split at h
        · simp only [Option.some.injEq, Prod.mk.injEq] at h
          obtain ⟨rfl, rfl⟩ := h.symm
          simp [Quadtree.elems, or_assoc]
          tauto
        · rcases tryChildren_spec _ _ _ _ _ _ _ _ _ h with
            ⟨c, hi, hr⟩ | ⟨c, c2, hi1, hi, hr⟩ |
            ⟨c, c2, c3, hi1, hi2, hi, hr⟩ |
            ⟨c, c2, c3, c4, hi1, hi2, hi3, hi, hr⟩ |
            ⟨c, c2, c3, c4, hi1, hi2, hi3, hi4, hr⟩ <;>
            (simp only [Prod.mk.injEq] at hr; obtain ⟨rfl, rfl⟩ := hr)
          · have hq := ih _ _ _ _ hi q
            simp only [Quadtree.elems, List.mem_append, List.not_mem_nil,
              List.mem_singleton, false_or, or_false, true_and] at hq
            simp only [Quadtree.elems, List.mem_append, List.not_mem_nil,
              List.mem_singleton, false_or, or_false, true_and, hq]
            try tauto
          · have hq := ih _ _ _ _ hi q
            simp only [Quadtree.elems, List.mem_append, List.not_mem_nil,
              List.mem_singleton, false_or, or_false, true_and] at hq
            simp only [Quadtree.elems, List.mem_append, List.not_mem_nil,
              List.mem_singleton, false_or, or_false, true_and, hq]
            try tauto
          · have hq := ih _ _ _ _ hi q
            simp only [Quadtree.elems, List.mem_append, List.not_mem_nil,
              List.mem_singleton, false_or, or_false, true_and] at hq
            simp only [Quadtree.elems, List.mem_append, List.not_mem_nil,
              List.mem_singleton, false_or, or_false, true_and, hq]
            try tauto
          · have hq := ih _ _ _ _ hi q
            simp only [Quadtree.elems, List.mem_append, List.not_mem_nil,
              List.mem_singleton, false_or, or_false, true_and] at hq
            simp only [Quadtree.elems, List.mem_append, List.not_mem_nil,
              List.mem_singleton, false_or, or_false, true_and, hq]
            try tauto
          · simp [Quadtree.elems]

/-- A Bool that is not false is true. -/
theorem bool_true_of_not_false {x : Bool} (h : ¬ x = false) : x = true := by
  cases x
  · exact absurd rfl h
  · rfl

/-- A freshly created empty leaf is well formed. -/
theorem WF_fresh (r : Rectangle) (cap : Nat) : (Quadtree.leaf r cap []).WF := by
  intro q hq
  simp at hq

set_option maxHeartbeats 1600000 in
/-- Insertion preserves well-formedness, and an insertion that returns
false can only happen for a particle outside the boundary, in which case
the tree is unchanged. -/
theorem insert_wf_false (fuel : Nat) :
    ∀ (t : Quadtree) (p : QtParticle) (t2 : Quadtree) (tf : Bool),
    Quadtree.insert fuel t p = some (t2, tf) → t.WF →
    t2.WF ∧ (tf = false → t.boundary.contains p = false ∧ t2 = t) := by
  induction fuel with
  | zero => intro t p t2 tf h; exact absurd h (by simp [Quadtree.insert])
  | succ fuel ih =>
    intro t p t2 tf h hwf
    cases t with
    | leaf b cap ps =>
      simp only [Quadtree.insert] at h
      split at h
      case isTrue hc =>
        simp only [Option.some.injEq, Prod.mk.injEq] at h
        obtain ⟨rfl, rfl⟩ := h.symm
        exact ⟨hwf, fun _ => ⟨hc, rfl⟩⟩
      case isFalse hc =>
        have hc2 : b.contains p = true := bool_true_of_not_false hc
        split at h
        · simp only [Option.some.injEq, Prod.mk.injEq] at h
          obtain ⟨rfl, rfl⟩ := h.symm
          refine ⟨?_, by simp⟩
          intro q hq
          rcases List.mem_append.mp hq with hq | hq
          · exact hwf q hq
          · simp only [List.mem_singleton] at hq
            subst hq
            exact hc2
        · rcases tryChildren_spec _ _ _ _ _ _ _ _ _ h with
            ⟨c, hi, hr⟩ | ⟨c, c2, hi1, hi, hr⟩ |
            ⟨c, c2, c3, hi1, hi2, hi, hr⟩ |
            ⟨c, c2, c3, c4, hi1, hi2, hi3, hi, hr⟩ |
            ⟨c, c2, c3, c4, hi1, hi2, hi3, hi4, hr⟩ <;>
            (simp only [Prod.mk.injEq] at hr; obtain ⟨rfl, rfl⟩ := hr)
          · have hres := ih _ _ _ _ hi (WF_fresh _ _)
            have hbd := insert_boundary _ _ _ _ _ hi
            simp only [Quadtree.WF]
            exact ⟨⟨hwf, hbd, rfl, rfl, rfl, hres.1, WF_fresh (nwRect b) cap,
              WF_fresh (seRect b) cap, WF_fresh (swRect b) cap⟩, by simp⟩
          · have hres := ih _ _ _ _ hi (WF_fresh _ _)
            have hbd := insert_boundary _ _ _ _ _ hi
            simp only [Quadtree.WF]
            exact ⟨⟨hwf, rfl, hbd, rfl, rfl, WF_fresh (neRect b) cap, hres.1,
              WF_fresh (seRect b) cap, WF_fresh (swRect b) cap⟩, by simp⟩
          · have hres := ih _ _ _ _ hi (WF_fresh _ _)
            have hbd := insert_boundary _ _ _ _ _ hi
            simp only [Quadtree.WF]
            exact ⟨⟨hwf, rfl, rfl, hbd, rfl, WF_fresh (neRect b) cap,
              WF_fresh (nwRect b) cap, hres.1, WF_fresh (swRect b) cap⟩,
              by simp⟩
          · have hres := ih _ _ _ _ hi (WF_fresh _ _)
            have hbd := insert_boundary _ _ _ _ _ hi
            simp only [Quadtree.WF]
            exact ⟨⟨hwf, rfl, rfl, rfl, hbd, WF_fresh (neRect b) cap,
              WF_fresh (nwRect b) cap, WF_fresh (seRect b) cap, hres.1⟩,
              by simp⟩
          · have h1 := ((ih _ _ _ _ hi1 (WF_fresh _ _)).2 rfl).1
            have h2 := ((ih _ _ _ _ hi2 (WF_fresh _ _)).2 rfl).1
            have h3 := ((ih _ _ _ _ hi3 (WF_fresh _ _)).2 rfl).1
            have h4 := ((ih _ _ _ _ hi4 (WF_fresh _ _)).2 rfl).1
            simp only [Quadtree.boundary] at h1 h2 h3 h4
            rcases quadrant_cover b p hc2 with hcov | hcov | hcov | hcov <;>
              simp_all
    | node b cap ps ne nw se sw =>
      simp only [Quadtree.WF] at hwf
      obtain ⟨hps, hbne, hbnw, hbse, hbsw, wne, wnw, wse, wsw⟩ := hwf
      simp only [Quadtree.insert] at h
      split at h
      case isTrue hc =>
        simp only [Option.some.injEq, Prod.mk.injEq] at h
        obtain ⟨rfl, rfl⟩ := h.symm
        refine ⟨?_, fun _ => ⟨hc, rfl⟩⟩
        simp only [Quadtree.WF]
        exact ⟨hps, hbne, hbnw, hbse, hbsw, wne, wnw, wse, wsw⟩
      case isFalse hc =>
        have hc2 : b.contains p = true := bool_true_of_not_false hc
        split at h
        · simp only [Option.some.injEq, Prod.mk.injEq] at h
          obtain ⟨rfl, rfl⟩ := h.symm
          refine ⟨?_, by simp⟩
          simp only [Quadtree.WF]
          refine ⟨?_, hbne, hbnw, hbse, hbsw, wne, wnw, wse, wsw⟩
          intro q hq
          rcases List.mem_append.mp hq with hq | hq
          · exact hps q hq
          · simp only [List.mem_singleton] at hq
            subst hq
            exact hc2
        · rcases tryChildren_spec _ _ _ _ _ _ _ _ _ h with
            ⟨c, hi, hr⟩ | ⟨c, c2, hi1, hi, hr⟩ |
            ⟨c, c2, c3, hi1, hi2, hi, hr⟩ |
            ⟨c, c2, c3, c4, hi1, hi2, hi3, hi, hr⟩ |
            ⟨c, c2, c3, c4, hi1, hi2, hi3, hi4, hr⟩ <;>
            (simp only [Prod.mk.injEq] at hr; obtain ⟨rfl, rfl⟩ := hr)
          · have hres := ih _ _ _ _ hi wne
            have hbd := insert_boundary _ _ _ _ _ hi
            simp only [Quadtree.WF]
            exact ⟨⟨hps, hbd.trans hbne, hbnw, hbse, hbsw, hres.1, wnw,
              wse, wsw⟩, by simp⟩
          · have hres := ih _ _ _ _ hi wnw
            have hbd := insert_boundary _ _ _ _ _ hi
            simp only [Quadtree.WF]
            exact ⟨⟨hps, hbne, hbd.trans hbnw, hbse, hbsw, wne, hres.1,
              wse, wsw⟩, by simp⟩
          · have hres := ih _ _ _ _ hi wse
            have hbd := insert_boundary _ _ _ _ _ hi
            simp only [Quadtree.WF]
            exact ⟨⟨hps, hbne, hbnw, hbd.trans hbse, hbsw, wne, wnw,
              hres.1, wsw⟩, by simp⟩
          · have hres := ih _ _ _ _ hi wsw
            have hbd := insert_boundary _ _ _ _ _ hi
            simp only [Quadtree.WF]
            exact ⟨⟨hps, hbne, hbnw, hbse, hbd.trans hbsw, wne, wnw,
              wse, hres.1⟩, by simp⟩
          · have h1 := ((ih _ _ _ _ hi1 wne).2 rfl).1
            have h2 := ((ih _ _ _ _ hi2 wnw).2 rfl).1
            have h3 := ((ih _ _ _ _ hi3 wse).2 rfl).1
            have h4 := ((ih _ _ _ _ hi4 wsw).2 rfl).1
            rw [hbne] at h1
            rw [hbnw] at h2
            rw [hbse] at h3
            rw [hbsw] at h4
            rcases quadrant_cover b p hc2 with hcov | hcov | hcov | hcov <;>
              simp_all

/-- The child cascade is defined whenever all four child inserts are. -/
theorem tryChildren_isSome (ins : Quadtree → Option (Quadtree × Bool))
    (b : Rectangle) (cap : Nat) (ps : List QtParticle)
    (ne nw se sw : Quadtree)
    (h1 : (ins ne).isSome) (h2 : (ins nw).isSome)
    (h3 : (ins se).isSome) (h4 : (ins sw).isSome) :
    (Quadtree.tryChildren ins b cap ps ne nw se sw).isSome := by
  rcases hne : ins ne with _ | ⟨c1, tf1⟩
  · rw [hne] at h1; simp at h1
  cases tf1
  · rcases hnw : ins nw with _ | ⟨c2, tf2⟩
    · rw [hnw] at h2; simp at h2
    cases tf2
    · rcases hse : ins se with _ | ⟨c3, tf3⟩
      · rw [hse] at h3; simp at h3
      cases tf3
      · rcases hsw : ins sw with _ | ⟨c4, tf4⟩
        · rw [hsw] at h4; simp at h4
        cases tf4 <;> simp [Quadtree.tryChildren, hne, hnw, hse, hsw]
      · simp [Quadtree.tryChildren, hne, hnw, hse]
    · simp [Quadtree.tryChildren, hne, hnw]
  · simp [Quadtree.tryChildren, hne]

/-- Inserting into a fresh empty leaf with positive capacity is always
defined for positive fuel. -/
theorem fresh_insert_isSome (r : Rectangle) (cap : Nat) (p : QtParticle)
    (f2 : Nat) (hcap : 1 ≤ cap) :
    (Quadtree.insert (f2 + 1) (Quadtree.leaf r cap []) p).isSome := by
  simp only [Quadtree.insert]
  split
  · simp
  · split
    · simp
    · simp_all

/-- With fuel exceeding the tree depth and positive capacities, insertion
is defined (it terminates within the given recursion depth). -/
theorem insert_isSome (t : Quadtree) :
    ∀ (p : QtParticle) (fuel : Nat), t.CapPos → t.depth + 1 ≤ fuel →
    (Quadtree.insert fuel t p).isSome := by
  induction t with
  | leaf b cap ps =>
    intro p fuel hcap hfuel
    cases fuel with
    | zero => simp [Quadtree.depth] at hfuel
    | succ fuel =>
      have hf1 : 1 ≤ fuel := by
        simp only [Quadtree.depth] at hfuel
        omega
      obtain ⟨f2, rfl⟩ : ∃ f2, fuel = f2 + 1 := ⟨fuel - 1, by omega⟩
      simp only [Quadtree.insert]
      split
      · simp
      · split
        · simp
        · exact tryChildren_isSome _ _ _ _ _ _ _ _
            (fresh_insert_isSome _ _ _ _ hcap)
            (fresh_insert_isSome _ _ _ _ hcap)
            (fresh_insert_isSome _ _ _ _ hcap)
            (fresh_insert_isSome _ _ _ _ hcap)
  | node b cap ps ne nw se sw ihne ihnw ihse ihsw =>
    intro p fuel hcap hfuel
    obtain ⟨hc, hcne, hcnw, hcse, hcsw⟩ := hcap
    cases fuel with
    | zero => simp [Quadtree.depth] at hfuel
    | succ fuel =>
      simp only [Quadtree.depth] at hfuel
      have hdne : ne.depth + 1 ≤ fuel := by
        have h1 : ne.depth ≤ max (max ne.depth nw.depth)
            (max se.depth sw.depth) := le_max_of_le_left (le_max_left _ _)
        omega
      have hdnw : nw.depth + 1 ≤ fuel := by
        have h1 : nw.depth ≤ max (max ne.depth nw.depth)
            (max se.depth sw.depth) := le_max_of_le_left (le_max_right _ _)
        omega
      have hdse : se.depth + 1 ≤ fuel := by
        have h1 : se.depth ≤ max (max ne.depth nw.depth)
            (max se.depth sw.depth) := le_max_of_le_right (le_max_left _ _)
        omega
      have hdsw : sw.depth + 1 ≤ fuel := by
        have h1 : sw.depth ≤ max (max ne.depth nw.depth)
            (max se.depth sw.depth) := le_max_of_le_right (le_max_right _ _)
        omega
      simp only [Quadtree.insert]
      split
      · simp
      · split
        · simp
        · exact tryChildren_isSome _ _ _ _ _ _ _ _
            (ihne p fuel hcne hdne) (ihnw p fuel hcnw hdnw)
            (ihse p fuel hcse hdse) (ihsw p fuel hcsw hdsw)

/-! ### Claim C4: insertion success and termination -/

/-- C4 (amended): insert returns false exactly for a particle outside the
root boundary (for any positive fuel, leaving the tree unchanged); for a
particle inside the boundary of a well-formed tree whose nodes all have
positive capacity, insert terminates within recursion depth one more than
the tree depth and returns true -- regardless of how many already-stored
particles share the particle's exact coordinates. -/
theorem C4_insert_spec_amended (t : Quadtree) (p : QtParticle)
    (hwf : t.WF) (hcap : t.CapPos) :
    (t.boundary.contains p = false →
      ∀ fuel, 1 ≤ fuel → Quadtree.insert fuel t p = some (t, false)) ∧
    (t.boundary.contains p = true →
      ∃ t2, Quadtree.insert (t.depth + 1) t p = some (t2, true)) := by
  constructor
  · intro h fuel hf
    exact insert_outside fuel t p h hf
  · intro h
    have hsome := insert_isSome t p (t.depth + 1) hcap (le_refl _)
    obtain ⟨⟨t2, tf⟩, hres⟩ := Option.isSome_iff_exists.mp hsome
    refine ⟨t2, ?_⟩
    cases tf
    · obtain ⟨hfalse, _⟩ := (insert_wf_false _ _ _ _ _ hres hwf).2 rfl
      rw [h] at hfalse
      exact absurd hfalse (by simp)
    · exact hres

/-- C4 as stated is false in its non-termination part: after five
particles with identical coordinates have been inserted into a root of
capacity four, inserting a sixth particle at the same coordinates still
terminates and returns true (the already-stored particles stay in the
ancestors' lists; each insert descends one level past them). -/
theorem C4_counterexample :
    4 < (List.replicate 5 (⟨10, 10⟩ : QtParticle)).length ∧
    ((insertAll 32 (Quadtree.leaf ⟨0, 0, 100, 100⟩ 4 [])
        (List.replicate 5 (⟨10, 10⟩ : QtParticle))).bind
      (fun t => Quadtree.insert 32 t ⟨10, 10⟩)).map Prod.snd =
      some true := by
  constructor
  · simp
  · with_unfolding_all rfl

/-- Witness for the amended C4 at a concrete tree and particle: a
one-element root of capacity 4. -/
theorem C4_witness :
    ((Quadtree.leaf ⟨0, 0, 100, 100⟩ 4 [⟨50, 50⟩]).boundary.contains
        (⟨200, 10⟩ : QtParticle) = false →
      ∀ fuel, 1 ≤ fuel →
      Quadtree.insert fuel (Quadtree.leaf ⟨0, 0, 100, 100⟩ 4 [⟨50, 50⟩])
        ⟨200, 10⟩ = some (Quadtree.leaf ⟨0, 0, 100, 100⟩ 4 [⟨50, 50⟩],
          false)) ∧
    ((Quadtree.leaf ⟨0, 0, 100, 100⟩ 4 [⟨50, 50⟩]).boundary.contains
        (⟨200, 10⟩ : QtParticle) = true →
      ∃ t2, Quadtree.insert
        ((Quadtree.leaf ⟨0, 0, 100, 100⟩ 4 [⟨50, 50⟩]).depth + 1)
        (Quadtree.leaf ⟨0, 0, 100, 100⟩ 4 [⟨50, 50⟩]) ⟨200, 10⟩ =
        some (t2, true)) :=
  C4_insert_spec_amended (Quadtree.leaf ⟨0, 0, 100, 100⟩ 4 [⟨50, 50⟩])
    ⟨200, 10⟩
    (by
      intro q hq
      simp only [List.mem_singleton] at hq
      subst hq
      with_unfolding_all decide)
    (by show (1:ℕ) ≤ 4; norm_num)

/-! ### Claim C3: queryCircle agrees with brute-force filtering -/

/-- In a well-formed tree, every stored particle lies inside the root
boundary. -/
theorem elems_contains : ∀ (t : Quadtree), t.WF →
    ∀ q, q ∈ t.elems → t.boundary.contains q = true := by
  intro t
  induction t with
  | leaf b cap ps =>
    intro hwf q hq
    exact hwf q hq
  | node b cap ps ne nw se sw ihne ihnw ihse ihsw =>
    intro hwf q hq
    obtain ⟨hps, hbne, hbnw, hbse, hbsw, wne, wnw, wse, wsw⟩ := hwf
    simp only [Quadtree.elems, List.mem_append] at hq
    rcases hq with (((hq | hq) | hq) | hq) | hq
    · exact hps q hq
    · have h := ihne wne q hq
      rw [hbne] at h
      exact contains_of_ne b q h
    · have h := ihnw wnw q hq
      rw [hbnw] at h
      exact contains_of_nw b q h
    · have h := ihse wse q hq
      rw [hbse] at h
      exact contains_of_se b q h
    · have h := ihsw wsw q hq
      rw [hbsw] at h
      exact contains_of_sw b q h

set_option maxHeartbeats 1600000 in
/-- A particle is returned by queryCircle on a well-formed tree exactly
when it was already in the accumulator, or it is stored in the tree and
its squared distance to the center is at most the squared radius. -/
theorem queryCircle_mem : ∀ (t : Quadtree), t.WF →
    ∀ (x y radius : ℚ) (found : List QtParticle) (q : QtParticle),
    q ∈ t.queryCircle x y radius found ↔ q ∈ found ∨
      (q ∈ t.elems ∧
        (q.x - x) * (q.x - x) + (q.y - y) * (q.y - y) ≤ radius * radius) := by
  intro t
  induction t with
  | leaf b cap ps =>
    intro hwf x y radius found q
    simp only [Quadtree.queryCircle]
    split
    case isTrue hprune =>
      constructor
      · exact Or.inl
      · rintro (h | ⟨hq, hd⟩)
        · exact h
        · exfalso
          have hcont := hwf q hq
          have hle := closest_point_le b q hcont x y
          linarith
    case isFalse hprune =>
      simp only [Quadtree.elems, List.mem_append, List.mem_filter,
        decide_eq_true_eq]
  | node b cap ps ne nw se sw ihne ihnw ihse ihsw =>
    intro hwf x y radius found q
    obtain ⟨hps, hbne, hbnw, hbse, hbsw, wne, wnw, wse, wsw⟩ := hwf
    simp only [Quadtree.queryCircle]
    split
    case isTrue hprune =>
      constructor
      · exact Or.inl
      · rintro (h | ⟨hq, hd⟩)
        · exact h
        · exfalso
          have hcont := elems_contains (Quadtree.node b cap ps ne nw se sw)
            ⟨hps, hbne, hbnw, hbse, hbsw, wne, wnw, wse, wsw⟩ q hq
          simp only [Quadtree.boundary] at hcont
          have hle := closest_point_le b q hcont x y
          linarith
    case isFalse hprune =>
      rw [ihsw wsw, ihse wse, ihnw wnw, ihne wne]
      simp only [Quadtree.elems, List.mem_append, List.mem_filter,
        decide_eq_true_eq]
      tauto

/-- Building a quadtree by repeated insertion of particles inside the
root boundary keeps it well formed, keeps the boundary, and stores
exactly the inserted particles (as a set). -/
theorem insertAll_spec : ∀ (ps : List QtParticle) (fuel : Nat)
    (t t2 : Quadtree), insertAll fuel t ps = some t2 → t.WF →
    (∀ p ∈ ps, t.boundary.contains p = true) →
    t2.WF ∧ t2.boundary = t.boundary ∧
      (∀ q, q ∈ t2.elems ↔ q ∈ t.elems ∨ q ∈ ps) := by
  intro ps
  induction ps with
  | nil =>
    intro fuel t t2 h hwf hin
    simp only [insertAll, Option.some.injEq] at h
    subst h
    exact ⟨hwf, rfl, by simp⟩
  | cons p rest ih =>
    intro fuel t t2 h hwf hin
    simp only [insertAll] at h
    rcases h3 : Quadtree.insert fuel t p with _ | ⟨t3, tf⟩ <;> rw [h3] at h
    · exact absurd h (by simp)
    have hwf3 := (insert_wf_false _ _ _ _ _ h3 hwf).1
    have hbd3 := insert_boundary _ _ _ _ _ h3
    have htf : tf = true := by
      cases tf
      · obtain ⟨hfalse, _⟩ := (insert_wf_false _ _ _ _ _ h3 hwf).2 rfl
        rw [hin p (List.mem_cons_self p rest)] at hfalse
        exact absurd hfalse (by simp)
      · rfl
    subst htf
    have helems := insert_elems _ _ _ _ _ h3
    obtain ⟨hwf2, hbd2, he2⟩ := ih fuel t3 t2 h hwf3
      (fun r hr => by
        rw [hbd3]
        exact hin r (List.mem_cons_of_mem p hr))
    refine ⟨hwf2, hbd2.trans hbd3, fun q => ?_⟩
    rw [he2 q, helems q]
    simp only [List.mem_cons, true_and]
    tauto

/-- Bridge between the squared-distance comparison used by the source and
the Euclidean-distance phrasing of the specification. -/
theorem dist_sqrt_iff (a b r : ℚ) (hr : 0 ≤ r) :
    (a * a + b * b ≤ r * r) ↔
      Real.sqrt ((a : ℝ) ^ 2 + (b : ℝ) ^ 2) ≤ (r : ℝ) := by
  have hcast : ((a : ℝ) ^ 2 + (b : ℝ) ^ 2) = ((a * a + b * b : ℚ) : ℝ) := by
    push_cast
    ring
  have hnn : (0 : ℝ) ≤ ((a * a + b * b : ℚ) : ℝ) := by
    have : (0 : ℚ) ≤ a * a + b * b := by
      nlinarith [mul_self_nonneg a, mul_self_nonneg b]
    exact_mod_cast this
  have hrr : (0 : ℝ) ≤ (r : ℝ) := by exact_mod_cast hr
  rw [hcast]
  constructor
  · intro h
    have h2 : ((a * a + b * b : ℚ) : ℝ) ≤ ((r * r : ℚ) : ℝ) := by
      exact_mod_cast h
    calc Real.sqrt ((a * a + b * b : ℚ) : ℝ)
        ≤ Real.sqrt ((r * r : ℚ) : ℝ) := Real.sqrt_le_sqrt h2
      _ = (r : ℝ) := by
          rw [show ((r * r : ℚ) : ℝ) = (r : ℝ) ^ 2 by push_cast; ring]
          exact Real.sqrt_sq hrr
  · intro h
    have hsq := Real.sq_sqrt hnn
    have h2 : ((a * a + b * b : ℚ) : ℝ) ≤ (r : ℝ) * (r : ℝ) := by
      nlinarith [Real.sqrt_nonneg (((a * a + b * b : ℚ) : ℝ))]
    exact_mod_cast h2

/-- C3: on a quadtree built by inserting particles that lie within the
root boundary, queryCircle returns exactly the particles whose Euclidean
distance from the center is at most the radius -- the same set as
brute-force filtering of the inserted particles. -/
theorem C3_queryCircle_eq_bruteforce (b0 : Rectangle) (cap fuel : Nat)
    (ps : List QtParticle) (t : Quadtree)
    (hin : ∀ p ∈ ps, b0.contains p = true)
    (hbuild : insertAll fuel (Quadtree.leaf b0 cap []) ps = some t)
    (x y radius : ℚ) (hr : 0 ≤ radius) (q : QtParticle) :
    q ∈ t.queryCircle x y radius [] ↔
      q ∈ ps ∧ Real.sqrt (((q.x - x : ℚ) : ℝ) ^ 2 +
        ((q.y - y : ℚ) : ℝ) ^ 2) ≤ (radius : ℝ) := by
  obtain ⟨hwf, hbd, he⟩ := insertAll_spec ps fuel _ t hbuild
    (WF_fresh b0 cap) hin
  rw [queryCircle_mem t hwf x y radius [] q]
  simp only [List.not_mem_nil, false_or]
  rw [he q]
  simp only [Quadtree.elems, List.not_mem_nil, false_or]
  rw [dist_sqrt_iff (q.x - x) (q.y - y) radius hr]

/-- Witness for C3: a three-particle tree and a concrete query circle. -/
theorem C3_witness :
    (⟨10, 10⟩ : QtParticle) ∈
      (Quadtree.leaf ⟨0, 0, 100, 100⟩ 4
        [⟨10, 10⟩, ⟨20, 20⟩, ⟨80, 80⟩]).queryCircle 15 15 10 [] ↔
      (⟨10, 10⟩ : QtParticle) ∈
        [(⟨10, 10⟩ : QtParticle), ⟨20, 20⟩, ⟨80, 80⟩] ∧
      Real.sqrt ((((⟨10, 10⟩ : QtParticle).x - 15 : ℚ) : ℝ) ^ 2 +
        (((⟨10, 10⟩ : QtParticle).y - 15 : ℚ) : ℝ) ^ 2) ≤ ((10 : ℚ) : ℝ) :=
  C3_queryCircle_eq_bruteforce ⟨0, 0, 100, 100⟩ 4 10
    [⟨10, 10⟩, ⟨20, 20⟩, ⟨80, 80⟩]
    (Quadtree.leaf ⟨0, 0, 100, 100⟩ 4 [⟨10, 10⟩, ⟨20, 20⟩, ⟨80, 80⟩])
    (by with_unfolding_all decide) (by with_unfolding_all rfl)
    15 15 10 (by norm_num) ⟨10, 10⟩

/-! ### PhysicsEngine (PhysicsEngine.js)

The engine state mirrors the PhysicsEngine fields used by the collision
pipeline.  The particles array is modelled as an index function together
with its length; Math.random is an explicit stream rng with a cursor
rngIndex, each call consuming one sample in [0,1).  The performance
counters in stats are purely diagnostic and are omitted.  update is
modelled in the options.useQuadtree = false mode, i.e. the
calculateForcesBruteForce pair enumeration; the per-pair logic
(calculateParticleInteraction, checkCollision, processCollision) is the
same in both modes. -/

/-- CONFIG.MAX_COLLISIONS_PER_FRAME (Config.js). -/
def MAX_COLLISIONS_PER_FRAME : Nat := 50

/-- CONFIG.COLLISION_COOLDOWN_FRAMES (Config.js). -/
def COLLISION_COOLDOWN_FRAMES : Nat := 60

/-- A pending spawn request pushed to particlesToAdd (the colors, types
and options fields of the source object are configuration references and
are omitted). -/
structure SpawnRequest where
  x : ℝ
  y : ℝ
  type : String
  initialVx : ℝ
  initialVy : ℝ

/-- PhysicsEngine state (the fields touched by update). -/
structure EngineState where
  numParticles : Nat
  particles : Nat → Particle
  rules : Rules
  options : Options
  collisionsThisFrame : Nat
  particlesToAdd : List SpawnRequest
  particlesToRemove : List Nat
  rng : Nat → ℝ
  rngIndex : Nat

/-- Write particle i of the store (mutation of a JS array element). -/
def setP (s : EngineState) (i : Nat) (p : Particle) : EngineState :=
  { s with particles := fun k => if k = i then p else s.particles k }

/-- One iteration of the createParticles loop body of
PhysicsEngine.processCollision (lines 464-491): midpoint position with
random offset in (-5, 5) per axis, average velocity with random
perturbation, four Math.random draws in source order. -/
noncomputable def spawnOne (s : EngineState) (i j : Nat) (ctype : String) :
    EngineState :=
  let p1 := s.particles i
  let p2 := s.particles j
  let centerX := (p1.x + p2.x) / 2
  let centerY := (p1.y + p2.y) / 2
  let offsetX := (s.rng s.rngIndex - 0.5) * 10
  let offsetY := (s.rng (s.rngIndex + 1) - 0.5) * 10
  let avgVx := (p1.vx + p2.vx) / 2
  let avgVy := (p1.vy + p2.vy) / 2
  let randomVx := (s.rng (s.rngIndex + 2) - 0.5) * 2
  let randomVy := (s.rng (s.rngIndex + 3) - 0.5) * 2
  { s with
    particlesToAdd := s.particlesToAdd ++
      [{ x := centerX + offsetX, y := centerY + offsetY, type := ctype
         initialVx := avgVx + randomVx, initialVy := avgVy + randomVy }]
    rngIndex := s.rngIndex + 4 }

/-- The inner for loop over creation.count. -/
noncomputable def spawnCount (i j : Nat) (ctype : String) :
    Nat → EngineState → EngineState
  | 0, s => s
  | n + 1, s => spawnCount i j ctype n (spawnOne s i j ctype)

/-- The forEach over rule.createParticles. -/
noncomputable def spawnAll (i j : Nat) :
    List Creation → EngineState → EngineState
  | [], s => s
  | c :: rest, s => spawnAll i j rest (spawnCount i j c.type c.count s)

/-- PhysicsEngine.processCollision (lines 447-497).  The source guard
rules[p1.type] && rules[p1.type][p2.type] returns early when either
lookup is missing; otherwise both cooldowns are set, the particles are
scheduled for removal when the rule destroys originals, the spawn
requests are pushed, and the collision counter is bumped. -/
noncomputable def processCollision (s : EngineState) (i j : Nat) :
    EngineState :=
  match s.rules (s.particles i).type with
  | none => s
  | some inner =>
    match inner (s.particles j).type with
    | none => s
    | some rule =>
      let s := setP s i { s.particles i with
        collisionCooldown := COLLISION_COOLDOWN_FRAMES }
      let s := setP s j { s.particles j with
        collisionCooldown := COLLISION_COOLDOWN_FRAMES }
      let s := if rule.destroyOriginals then
          { s with particlesToRemove := s.particlesToRemove ++ [i, j] }
        else s
      let s := if 0 < rule.createParticles.length then
          spawnAll i j rule.createParticles s
        else s
      { s with collisionsThisFrame := s.collisionsThisFrame + 1 }

/-- PhysicsEngine.checkCollision (lines 424-440). -/
noncomputable def checkCollision (s : EngineState) (i j : Nat) :
    EngineState :=
  let p1 := s.particles i
  let p2 := s.particles j
  if p1.collisionCooldown > 0 ∨ p2.collisionCooldown > 0 then s
  else
    let dx := p1.x - p2.x
    let dy := p1.y - p2.y
    let distance := Real.sqrt (dx * dx + dy * dy)
    let collisionDistance :=
      (p1.size + p2.size) * s.options.collisionDistanceRatio
    if distance < collisionDistance then processCollision s i j else s

/-- PhysicsEngine.calculateParticleInteraction (lines 406-417): apply the
pairwise force to the first particle, then check for a collision if the
per-frame budget is not exhausted.  A TypeError thrown by the force
lookup propagates. -/
noncomputable def calculateParticleInteraction (s : EngineState)
    (i j : Nat) : Except Unit EngineState :=
  match calculateForce (s.particles i) (s.particles j) s.rules s.options with
  | .error e => .error e
  | .ok force =>
    let s := setP s i ((s.particles i).applyForce force)
    let s := if s.collisionsThisFrame < MAX_COLLISIONS_PER_FRAME then
        checkCollision s i j
      else s
    .ok s

/-- The ordered pair sequence visited by
PhysicsEngine.calculateForcesBruteForce (lines 388-399): for each i and
each j above i, the interaction is evaluated once per direction. -/
def bruteForcePairs (n : Nat) : List (Nat × Nat) :=
  (List.range n).flatMap (fun i =>
    ((List.range n).filter (fun j => i < j)).flatMap
      (fun j => [(i, j), (j, i)]))

/-- Run the interactions of a pair list in order. -/
noncomputable def runInteractions :
    List (Nat × Nat) → EngineState → Except Unit EngineState
  | [], s => .ok s
  | (i, j) :: rest, s =>
    match calculateParticleInteraction s i j with
    | .error e => .error e
    | .ok s2 => runInteractions rest s2

/-- Particle.calculateEdgeRepulsion (Particle.js lines 202-240). -/
noncomputable def Particle.calculateEdgeRepulsion (p : Particle)
    (canvasWidth canvasHeight : ℝ) (options : Options) : Force :=
  let minDistance := options.minDistanceToEdges
  let repulsionForce := options.edgeRepulsionForce
  let distToLeft := p.x
  let distToRight := canvasWidth - p.x
  let distToTop := p.y
  let distToBottom := canvasHeight - p.y
  { fx :=
      (if distToLeft < minDistance then
        repulsionForce * (1 - distToLeft / minDistance) else 0) -
      (if distToRight < minDistance then
        repulsionForce * (1 - distToRight / minDistance) else 0)
    fy :=
      (if distToTop < minDistance then
        repulsionForce * (1 - distToTop / minDistance) else 0) -
      (if distToBottom < minDistance then
        repulsionForce * (1 - distToBottom / minDistance) else 0) }

/-- Map a function over the live particle slots (a forEach over the
particles array). -/
def mapParticles (s : EngineState) (f : Particle → Particle) : EngineState :=
  { s with particles := fun k =>
      if k < s.numParticles then f (s.particles k) else s.particles k }

/-- The result object returned by PhysicsEngine.update. -/
structure UpdateResult where
  particlesToAdd : List SpawnRequest
  particlesToRemove : List Nat
  collisionsThisFrame : Nat

/-- PhysicsEngine.update (lines 306-349) in brute-force mode: reset the
per-frame lists and counter, reset all forces, run every ordered pair
interaction, apply edge repulsion, integrate every particle, and return
the collision results. -/
noncomputable def PhysicsEngine.update (canvasWidth canvasHeight : ℝ)
    (s : EngineState) : Except Unit (EngineState × UpdateResult) :=
  let s := { s with particlesToAdd := [], particlesToRemove := []
                    collisionsThisFrame := 0 }
  let s := mapParticles s Particle.resetForces
  match runInteractions (bruteForcePairs s.numParticles) s with
  | .error e => .error e
  | .ok s =>
    let s := mapParticles s (fun p =>
      p.applyForce (p.calculateEdgeRepulsion canvasWidth canvasHeight
        s.options))
    let s := mapParticles s (fun p =>
      p.update canvasWidth canvasHeight)
    .ok (s, { particlesToAdd := s.particlesToAdd
              particlesToRemove := s.particlesToRemove
              collisionsThisFrame := s.collisionsThisFrame })

/-! ### Claim C10: no particle is scheduled for removal twice -/

@[simp] theorem applyForce_collisionCooldown (p : Particle) (f : Force) :
    (p.applyForce f).collisionCooldown = p.collisionCooldown := rfl

@[simp] theorem applyForce_x (p : Particle) (f : Force) :
    (p.applyForce f).x = p.x := rfl

@[simp] theorem applyForce_y (p : Particle) (f : Force) :
    (p.applyForce f).y = p.y := rfl

@[simp] theorem applyForce_vx (p : Particle) (f : Force) :
    (p.applyForce f).vx = p.vx := rfl

@[simp] theorem applyForce_vy (p : Particle) (f : Force) :
    (p.applyForce f).vy = p.vy := rfl

@[simp] theorem applyForce_type (p : Particle) (f : Force) :
    (p.applyForce f).type = p.type := rfl

@[simp] theorem applyForce_size (p : Particle) (f : Force) :
    (p.applyForce f).size = p.size := rfl

@[simp] theorem resetForces_collisionCooldown (p : Particle) :
    p.resetForces.collisionCooldown = p.collisionCooldown := rfl

@[simp] theorem resetForces_x (p : Particle) : p.resetForces.x = p.x := rfl

@[simp] theorem resetForces_y (p : Particle) : p.resetForces.y = p.y := rfl

@[simp] theorem resetForces_vx (p : Particle) : p.resetForces.vx = p.vx := rfl

@[simp] theorem resetForces_vy (p : Particle) : p.resetForces.vy = p.vy := rfl

@[simp] theorem resetForces_type (p : Particle) :
    p.resetForces.type = p.type := rfl

@[simp] theorem resetForces_size (p : Particle) :
    p.resetForces.size = p.size := rfl

@[simp] theorem setP_particles (s : EngineState) (i : Nat) (p : Particle)
    (k : Nat) : (setP s i p).particles k =
      if k = i then p else s.particles k := rfl

@[simp] theorem setP_particlesToRemove (s : EngineState) (i : Nat)
    (p : Particle) : (setP s i p).particlesToRemove =
      s.particlesToRemove := rfl

@[simp] theorem setP_particlesToAdd (s : EngineState) (i : Nat)
    (p : Particle) : (setP s i p).particlesToAdd = s.particlesToAdd := rfl

@[simp] theorem setP_rules (s : EngineState) (i : Nat) (p : Particle) :
    (setP s i p).rules = s.rules := rfl

@[simp] theorem setP_options (s : EngineState) (i : Nat) (p : Particle) :
    (setP s i p).options = s.options := rfl

@[simp] theorem setP_collisionsThisFrame (s : EngineState) (i : Nat)
    (p : Particle) : (setP s i p).collisionsThisFrame =
      s.collisionsThisFrame := rfl

@[simp] theorem setP_numParticles (s : EngineState) (i : Nat)
    (p : Particle) : (setP s i p).numParticles = s.numParticles := rfl

@[simp] theorem setP_rng (s : EngineState) (i : Nat) (p : Particle) :
    (setP s i p).rng = s.rng := rfl

@[simp] theorem setP_rngIndex (s : EngineState) (i : Nat) (p : Particle) :
    (setP s i p).rngIndex = s.rngIndex := rfl

@[simp] theorem spawnOne_particles (s : EngineState) (i j : Nat)
    (t : String) : (spawnOne s i j t).particles = s.particles := rfl

@[simp] theorem spawnOne_particlesToRemove (s : EngineState) (i j : Nat)
    (t : String) : (spawnOne s i j t).particlesToRemove =
      s.particlesToRemove := rfl

@[simp] theorem spawnOne_collisionsThisFrame (s : EngineState) (i j : Nat)
    (t : String) : (spawnOne s i j t).collisionsThisFrame =
      s.collisionsThisFrame := rfl

@[simp] theorem spawnOne_numParticles (s : EngineState) (i j : Nat)
    (t : String) : (spawnOne s i j t).numParticles = s.numParticles := rfl

@[simp] theorem spawnCount_particles (i j : Nat) (t : String) (n : Nat) :
    ∀ s : EngineState, (spawnCount i j t n s).particles = s.particles := by
  induction n with
  | zero => intro s; rfl
  | succ n ih => intro s; rw [spawnCount, ih]; rfl

@[simp] theorem spawnCount_particlesToRemove (i j : Nat) (t : String)
    (n : Nat) : ∀ s : EngineState,
    (spawnCount i j t n s).particlesToRemove = s.particlesToRemove := by
  induction n with
  | zero => intro s; rfl
  | succ n ih => intro s; rw [spawnCount, ih]; rfl

@[simp] theorem spawnCount_collisionsThisFrame (i j : Nat) (t : String)
    (n : Nat) : ∀ s : EngineState,
    (spawnCount i j t n s).collisionsThisFrame = s.collisionsThisFrame := by
  induction n with
  | zero => intro s; rfl
  | succ n ih => intro s; rw [spawnCount, ih]; rfl

@[simp] theorem spawnAll_particles (i j : Nat) (cs : List Creation) :
    ∀ s : EngineState, (spawnAll i j cs s).particles = s.particles := by
  induction cs with
  | nil => intro s; rfl
  | cons c rest ih => intro s; rw [spawnAll, ih]; simp

@[simp] theorem spawnAll_particlesToRemove (i j : Nat)
    (cs : List Creation) : ∀ s : EngineState,
    (spawnAll i j cs s).particlesToRemove = s.particlesToRemove := by
  induction cs with
  | nil => intro s; rfl
  | cons c rest ih => intro s; rw [spawnAll, ih]; simp

@[simp] theorem mapParticles_particlesToRemove (s : EngineState)
    (f : Particle → Particle) :
    (mapParticles s f).particlesToRemove = s.particlesToRemove := rfl

@[simp] theorem mapParticles_particlesToAdd (s : EngineState)
    (f : Particle → Particle) :
    (mapParticles s f).particlesToAdd = s.particlesToAdd := rfl

@[simp] theorem mapParticles_collisionsThisFrame (s : EngineState)
    (f : Particle → Particle) :
    (mapParticles s f).collisionsThisFrame = s.collisionsThisFrame := rfl

@[simp] theorem mapParticles_numParticles (s : EngineState)
    (f : Particle → Particle) :
    (mapParticles s f).numParticles = s.numParticles := rfl

/-- Invariant tying the removal list to the collision cooldowns: the list
has no duplicates, and every particle in it has a positive cooldown. -/
def RemInv (s : EngineState) : Prop :=
  s.particlesToRemove.Nodup ∧
  ∀ k ∈ s.particlesToRemove, 0 < (s.particles k).collisionCooldown

/-- Characterization of processCollision: either a rule lookup failed
and the state is unchanged, or (for the matched rule) the removal list
gains i and j exactly when the rule destroys originals, and both
participants' cooldowns are set to the cooldown constant. -/
theorem processCollision_cases (s : EngineState) (i j : Nat) :
    processCollision s i j = s ∨
    (∃ rule : Rule,
      (processCollision s i j).particlesToRemove =
        (if rule.destroyOriginals then s.particlesToRemove ++ [i, j]
          else s.particlesToRemove) ∧
      ∀ k, ((processCollision s i j).particles k).collisionCooldown =
        if k = j then COLLISION_COOLDOWN_FRAMES
        else if k = i then COLLISION_COOLDOWN_FRAMES
        else (s.particles k).collisionCooldown) := by
  rcases h1 : s.rules (s.particles i).type with _ | inner
  · left
    unfold processCollision
    rw [h1]
  rcases h2 : inner (s.particles j).type with _ | rule
  · left
    unfold processCollision
    rw [h1]
    simp only []
    rw [h2]
  right
  refine ⟨rule, ?_, ?_⟩
  · unfold processCollision
    rw [h1]
    simp only []
    rw [h2]
    simp only []
    split <;> split <;> simp_all
  · intro k
    unfold processCollision
    rw [h1]
    simp only []
    rw [h2]
    simp only []
    have hpart : ∀ u : EngineState, u.particles =
        (setP (setP s i { s.particles i with
          collisionCooldown := COLLISION_COOLDOWN_FRAMES }) j
          { (setP s i { s.particles i with
              collisionCooldown := COLLISION_COOLDOWN_FRAMES }).particles j
            with collisionCooldown := COLLISION_COOLDOWN_FRAMES }).particles →
        (u.particles k).collisionCooldown =
          if k = j then COLLISION_COOLDOWN_FRAMES
          else if k = i then COLLISION_COOLDOWN_FRAMES
          else (s.particles k).collisionCooldown := by
      intro u hu
      rw [hu]
      by_cases hkj : k = j
      · subst hkj
        simp [setP_particles]
      · by_cases hki : k = i
        · subst hki
          simp [setP_particles, hkj]
        · simp [setP_particles, hkj, hki]
    apply hpart
    split <;> split <;> simp

/-- processCollision preserves the invariant when both participants have
zero cooldown. -/
theorem processCollision_inv (s : EngineState) (i j : Nat) (hij : i ≠ j)
    (hi : (s.particles i).collisionCooldown = 0)
    (hj : (s.particles j).collisionCooldown = 0)
    (hinv : RemInv s) : RemInv (processCollision s i j) := by
  rcases processCollision_cases s i j with heq | ⟨rule, hrem, hcool⟩
  · rw [heq]
    exact hinv
  obtain ⟨hnd, hcd⟩ := hinv
  have hmemi : i ∉ s.particlesToRemove := by
    intro hmem
    have := hcd i hmem
    omega
  have hmemj : j ∉ s.particlesToRemove := by
    intro hmem
    have := hcd j hmem
    omega
  constructor
  · rw [hrem]
    split
    · refine List.Nodup.append hnd (by simp [hij]) ?_
      intro a ha hb
      simp only [List.mem_cons, List.mem_singleton, List.not_mem_nil,
        or_false] at hb
      rcases hb with rfl | rfl
      · exact hmemi ha
      · exact hmemj ha
    · exact hnd
  · intro k hk
    rw [hrem] at hk
    rw [hcool k]
    by_cases hkj : k = j
    · simp [hkj, COLLISION_COOLDOWN_FRAMES]
    by_cases hki : k = i
    · simp [hkj, hki, COLLISION_COOLDOWN_FRAMES]
    have hk2 : k ∈ s.particlesToRemove := by
      revert hk
      split <;> simp_all
    simp [hkj, hki]
    exact hcd k hk2

/-- checkCollision preserves the invariant. -/
theorem checkCollision_inv (s : EngineState) (i j : Nat) (hij : i ≠ j)
    (hinv : RemInv s) : RemInv (checkCollision s i j) := by
  unfold checkCollision
  simp only []
  split
  · exact hinv
  case isFalse hcc =>
    push_neg at hcc
    obtain ⟨h1, h2⟩ := hcc
    split
    · exact processCollision_inv s i j hij (by omega) (by omega) hinv
    · exact hinv

/-- One pair interaction preserves the invariant. -/
theorem interaction_inv (s : EngineState) (i j : Nat) (s2 : EngineState)
    (hij : i ≠ j) (h : calculateParticleInteraction s i j = .ok s2)
    (hinv : RemInv s) : RemInv s2 := by
  unfold calculateParticleInteraction at h
  split at h
  · exact absurd h (by simp)
  · rename_i force heq
    simp only [Except.ok.injEq] at h
    subst h
    have hinv2 : RemInv (setP s i ((s.particles i).applyForce force)) := by
      obtain ⟨hnd, hcd⟩ := hinv
      refine ⟨hnd, ?_⟩
      intro k hk
      simp only [setP_particlesToRemove] at hk
      by_cases hki : k = i
      · subst hki
        simp only [setP_particles, if_pos rfl, applyForce_collisionCooldown]
        exact hcd k hk
      · simp only [setP_particles, hki, if_neg, ite_false]
        exact hcd k hk
    split
    · exact checkCollision_inv _ i j hij hinv2
    · exact hinv2

/-- The fold of interactions preserves the invariant when every visited
pair has distinct members. -/
theorem runInteractions_inv : ∀ (pairs : List (Nat × Nat))
    (s s2 : EngineState), (∀ pr ∈ pairs, pr.1 ≠ pr.2) → RemInv s →
    runInteractions pairs s = .ok s2 → RemInv s2 := by
  intro pairs
  induction pairs with
  | nil =>
    intro s s2 _ hinv h
    simp only [runInteractions, Except.ok.injEq] at h
    subst h
    exact hinv
  | cons pr rest ih =>
    intro s s2 hne hinv h
    obtain ⟨i, j⟩ := pr
    simp only [runInteractions] at h
    cases h3 : calculateParticleInteraction s i j with
    | error e => rw [h3] at h; exact absurd h (by simp)
    | ok s3 =>
      rw [h3] at h
      have hinv3 := interaction_inv s i j s3
        (hne (i, j) (List.mem_cons_self _ _)) h3 hinv
      exact ih s3 s2 (fun q hq => hne q (List.mem_cons_of_mem _ hq)) hinv3 h

/-- Every pair visited by the brute-force enumeration has distinct
members. -/
theorem bruteForcePairs_ne (n : Nat) :
    ∀ pr ∈ bruteForcePairs n, pr.1 ≠ pr.2 := by
  intro pr hpr
  simp only [bruteForcePairs, List.mem_flatMap, List.mem_filter,
    List.mem_range, decide_eq_true_eq] at hpr
  obtain ⟨i, hi, j, ⟨hj, hij⟩, hmem⟩ := hpr
  simp only [List.mem_cons, List.mem_singleton, List.not_mem_nil,
    or_false] at hmem
  rcases hmem with rfl | rfl <;> simp <;> omega

/-- C10: within one PhysicsEngine.update, each particle index appears at
most once in the returned particlesToRemove list: processing a collision
sets both cooldowns to the positive cooldown constant, which makes the
participants ineligible for any further collision in the same frame,
even though every interacting pair is evaluated once per direction. -/
theorem C10_toRemove_nodup (w h : ℝ) (s : EngineState) (l : List Nat)
    (hres : (PhysicsEngine.update w h s).map
      (fun r => r.2.particlesToRemove) = .ok l) : l.Nodup := by
  unfold PhysicsEngine.update at hres
  simp only [] at hres
  split at hres
  · exact absurd hres (by simp [Except.map])
  · rename_i s1 heq
    simp only [Except.map, mapParticles_particlesToRemove,
      Except.ok.injEq] at hres
    subst hres
    have hinv0 : RemInv (mapParticles
        { s with particlesToAdd := [], particlesToRemove := []
                 collisionsThisFrame := 0 } Particle.resetForces) := by
      constructor
      · simp
      · intro k hk
        simp at hk
    exact (runInteractions_inv _ _ _
      (fun pr hpr => bruteForcePairs_ne _ pr hpr) hinv0 heq).1

/-- An empty engine used as the C10 witness. -/
noncomputable def engineC10 : EngineState :=
  { numParticles := 0, particles := fun _ => mkParticle 0 0 "A" defaultOptions
    rules := fun _ => none, options := defaultOptions
    collisionsThisFrame := 0, particlesToAdd := [], particlesToRemove := []
    rng := fun _ => 0, rngIndex := 0 }

/-- Witness for C10 on a concrete engine state. -/
theorem C10_witness :
    (PhysicsEngine.update 100 100 engineC10).map
        (fun r => r.2.particlesToRemove) = .ok ([] : List Nat) ∧
    ([] : List Nat).Nodup :=
  ⟨rfl, C10_toRemove_nodup 100 100 engineC10 [] rfl⟩

/-! ### Claim C5: a collision with createParticles count 2 spawns
exactly two particles -/

@[simp] theorem spawnOne_rules (s : EngineState) (i j : Nat) (t : String) :
    (spawnOne s i j t).rules = s.rules := rfl

@[simp] theorem spawnOne_options (s : EngineState) (i j : Nat)
    (t : String) : (spawnOne s i j t).options = s.options := rfl

@[simp] theorem spawnCount_rules (i j : Nat) (t : String) (n : Nat) :
    ∀ s : EngineState, (spawnCount i j t n s).rules = s.rules := by
  induction n with
  | zero => intro s; rfl
  | succ n ih => intro s; rw [spawnCount, ih]; rfl

@[simp] theorem spawnCount_options (i j : Nat) (t : String) (n : Nat) :
    ∀ s : EngineState, (spawnCount i j t n s).options = s.options := by
  induction n with
  | zero => intro s; rfl
  | succ n ih => intro s; rw [spawnCount, ih]; rfl

@[simp] theorem spawnCount_numParticles (i j : Nat) (t : String) (n : Nat) :
    ∀ s : EngineState, (spawnCount i j t n s).numParticles =
      s.numParticles := by
  induction n with
  | zero => intro s; rfl
  | succ n ih => intro s; rw [spawnCount, ih]; rfl

@[simp] theorem spawnAll_rules (i j : Nat) (cs : List Creation) :
    ∀ s : EngineState, (spawnAll i j cs s).rules = s.rules := by
  induction cs with
  | nil => intro s; rfl
  | cons c rest ih => intro s; rw [spawnAll, ih]; simp

@[simp] theorem spawnAll_options (i j : Nat) (cs : List Creation) :
    ∀ s : EngineState, (spawnAll i j cs s).options = s.options := by
  induction cs with
  | nil => intro s; rfl
  | cons c rest ih => intro s; rw [spawnAll, ih]; simp

@[simp] theorem spawnAll_numParticles (i j : Nat) (cs : List Creation) :
    ∀ s : EngineState, (spawnAll i j cs s).numParticles =
      s.numParticles := by
  induction cs with
  | nil => intro s; rfl
  | cons c rest ih => intro s; rw [spawnAll, ih]; simp

@[simp] theorem spawnAll_collisionsThisFrame (i j : Nat)
    (cs : List Creation) : ∀ s : EngineState,
    (spawnAll i j cs s).collisionsThisFrame = s.collisionsThisFrame := by
  induction cs with
  | nil => intro s; rfl
  | cons c rest ih => intro s; rw [spawnAll, ih]; simp

/-- processCollision never changes the rules, options, particle count,
or any particle field other than the collision cooldown. -/
theorem processCollision_preserves (s : EngineState) (i j : Nat) :
    (processCollision s i j).rules = s.rules ∧
    (processCollision s i j).options = s.options ∧
    (processCollision s i j).numParticles = s.numParticles ∧
    ∀ k, ((processCollision s i j).particles k).type =
        (s.particles k).type ∧
      ((processCollision s i j).particles k).x = (s.particles k).x ∧
      ((processCollision s i j).particles k).y = (s.particles k).y ∧
      ((processCollision s i j).particles k).vx = (s.particles k).vx ∧
      ((processCollision s i j).particles k).vy = (s.particles k).vy ∧
      ((processCollision s i j).particles k).size = (s.particles k).size := by
  rcases h1 : s.rules (s.particles i).type with _ | inner
  · unfold processCollision
    rw [h1]
    exact ⟨rfl, rfl, rfl, fun k => ⟨rfl, rfl, rfl, rfl, rfl, rfl⟩⟩
  rcases h2 : inner (s.particles j).type with _ | rule
  · unfold processCollision
    rw [h1]
    simp only []
    rw [h2]
    exact ⟨rfl, rfl, rfl, fun k => ⟨rfl, rfl, rfl, rfl, rfl, rfl⟩⟩
  · unfold processCollision
    rw [h1]
    simp only []
    rw [h2]
    simp only []
    refine ⟨?_, ?_, ?_, ?_⟩
    · split <;> split <;> simp
    · split <;> split <;> simp
    · split <;> split <;> simp
    · intro k
      have hpart : ∀ u : EngineState, u.particles =
          (setP (setP s i { s.particles i with
            collisionCooldown := COLLISION_COOLDOWN_FRAMES }) j
            { (setP s i { s.particles i with
                collisionCooldown := COLLISION_COOLDOWN_FRAMES }).particles j
              with collisionCooldown := COLLISION_COOLDOWN_FRAMES }).particles →
          (u.particles k).type = (s.particles k).type ∧
          (u.particles k).x = (s.particles k).x ∧
          (u.particles k).y = (s.particles k).y ∧
          (u.particles k).vx = (s.particles k).vx ∧
          (u.particles k).vy = (s.particles k).vy ∧
          (u.particles k).size = (s.particles k).size := by
        intro u hu
        rw [hu]
        by_cases hkj : k = j
        · subst hkj
          by_cases hki : k = i <;> simp [setP_particles, hki]
        · by_cases hki : k = i
          · subst hki
            simp [setP_particles, hkj]
          · simp [setP_particles, hkj, hki]
      apply hpart
      split <;> split <;> simp

/-- processCollision with both rule lookups present bumps the collision
counter by one. -/
theorem processCollision_collisions (s : EngineState) (i j : Nat)
    (inner : String → Option Rule) (rule : Rule)
    (h1 : s.rules (s.particles i).type = some inner)
    (h2 : inner (s.particles j).type = some rule) :
    (processCollision s i j).collisionsThisFrame =
      s.collisionsThisFrame + 1 := by
  unfold processCollision
  rw [h1]
  simp only []
  rw [h2]
  simp only []
  split <;> split <;> simp

/-- processCollision with both cooldowns previously zero, a matched rule
whose createParticles list is a single entry of count 2, pushes exactly
two spawn requests: midpoint plus per-axis random offset, average
velocity plus random perturbation, consuming four random samples each. -/
theorem processCollision_toAdd (s : EngineState) (i j : Nat)
    (inner : String → Option Rule) (rule : Rule) (ctype : String)
    (hij : i ≠ j)
    (h1 : s.rules (s.particles i).type = some inner)
    (h2 : inner (s.particles j).type = some rule)
    (hcr : rule.createParticles = [⟨ctype, 2⟩]) :
    (processCollision s i j).particlesToAdd = s.particlesToAdd ++
      [{ x := ((s.particles i).x + (s.particles j).x) / 2 +
            (s.rng s.rngIndex - 0.5) * 10
         y := ((s.particles i).y + (s.particles j).y) / 2 +
            (s.rng (s.rngIndex + 1) - 0.5) * 10
         type := ctype
         initialVx := ((s.particles i).vx + (s.particles j).vx) / 2 +
            (s.rng (s.rngIndex + 2) - 0.5) * 2
         initialVy := ((s.particles i).vy + (s.particles j).vy) / 2 +
            (s.rng (s.rngIndex + 3) - 0.5) * 2 },
       { x := ((s.particles i).x + (s.particles j).x) / 2 +
            (s.rng (s.rngIndex + 4) - 0.5) * 10
         y := ((s.particles i).y + (s.particles j).y) / 2 +
            (s.rng (s.rngIndex + 4 + 1) - 0.5) * 10
         type := ctype
         initialVx := ((s.particles i).vx + (s.particles j).vx) / 2 +
            (s.rng (s.rngIndex + 4 + 2) - 0.5) * 2
         initialVy := ((s.particles i).vy + (s.particles j).vy) / 2 +
            (s.rng (s.rngIndex + 4 + 3) - 0.5) * 2 }] := by
  have hsAll : ∀ u : EngineState, spawnAll i j [⟨ctype, 2⟩] u =
      spawnOne (spawnOne u i j ctype) i j ctype := fun u => rfl
  unfold processCollision
  rw [h1]
  simp only []
  rw [h2]
  simp only []
  rw [hcr]
  rw [if_pos (by simp : (0:Nat) <
    ([⟨ctype, 2⟩] : List Creation).length)]
  rw [hsAll]
  split <;>
  · simp only [spawnOne]
    simp [setP_particles, hij, Ne.symm hij, List.append_assoc]

/-- Cooldowns after a processed collision with both lookups present. -/
theorem processCollision_cooldown (s : EngineState) (i j : Nat)
    (inner : String → Option Rule) (rule : Rule)
    (h1 : s.rules (s.particles i).type = some inner)
    (h2 : inner (s.particles j).type = some rule) :
    ∀ k, ((processCollision s i j).particles k).collisionCooldown =
      if k = j then COLLISION_COOLDOWN_FRAMES
      else if k = i then COLLISION_COOLDOWN_FRAMES
      else (s.particles k).collisionCooldown := by
  intro k
  unfold processCollision
  rw [h1]
  simp only []
  rw [h2]
  simp only []
  have hpart : ∀ u : EngineState, u.particles =
      (setP (setP s i { s.particles i with
        collisionCooldown := COLLISION_COOLDOWN_FRAMES }) j
        { (setP s i { s.particles i with
            collisionCooldown := COLLISION_COOLDOWN_FRAMES }).particles j
          with collisionCooldown := COLLISION_COOLDOWN_FRAMES }).particles →
      (u.particles k).collisionCooldown =
        if k = j then COLLISION_COOLDOWN_FRAMES
        else if k = i then COLLISION_COOLDOWN_FRAMES
        else (s.particles k).collisionCooldown := by
    intro u hu
    rw [hu]
    by_cases hkj : k = j
    · subst hkj
      simp [setP_particles]
    · by_cases hki : k = i
      · subst hki
        simp [setP_particles, hkj]
      · simp [setP_particles, hkj, hki]
  apply hpart
  split <;> split <;> simp

/-- calculateForce succeeds whenever the rules object has an entry for
the source type. -/
theorem calculateForce_isOk (p other : Particle) (rules : Rules)
    (options : Options) (inner : String → Option Rule)
    (h : rules p.type = some inner) :
    ∃ f, calculateForce p other rules options = .ok f := by
  unfold calculateForce
  simp only []
  split
  · exact ⟨_, rfl⟩
  · rw [h]
    exact ⟨_, rfl⟩

/-- checkCollision forwards to processCollision when both cooldowns are
zero and the pair is within collision distance. -/
theorem checkCollision_eq_process (s : EngineState) (i j : Nat)
    (hi : (s.particles i).collisionCooldown = 0)
    (hj : (s.particles j).collisionCooldown = 0)
    (hd : Real.sqrt
        (((s.particles i).x - (s.particles j).x) *
          ((s.particles i).x - (s.particles j).x) +
         ((s.particles i).y - (s.particles j).y) *
          ((s.particles i).y - (s.particles j).y)) <
      ((s.particles i).size + (s.particles j).size) *
        s.options.collisionDistanceRatio) :
    checkCollision s i j = processCollision s i j := by
  unfold checkCollision
  simp only []
  rw [if_neg (by simp [hi, hj]), if_pos hd]

/-- checkCollision is a no-op when either participant is cooling down. -/
theorem checkCollision_skip (s : EngineState) (i j : Nat)
    (h : (s.particles i).collisionCooldown > 0 ∨
      (s.particles j).collisionCooldown > 0) :
    checkCollision s i j = s := by
  unfold checkCollision
  simp only []
  rw [if_pos h]

/-- calculateParticleInteraction with a successful force computation and
remaining collision budget. -/
theorem interaction_eq (s : EngineState) (i j : Nat) (f : Force)
    (hf : calculateForce (s.particles i) (s.particles j) s.rules
      s.options = .ok f)
    (hbudget : s.collisionsThisFrame < MAX_COLLISIONS_PER_FRAME) :
    calculateParticleInteraction s i j =
      .ok (checkCollision (setP s i ((s.particles i).applyForce f)) i j) := by
  unfold calculateParticleInteraction
  rw [hf]
  simp only []
  rw [if_pos (by simpa using hbudget)]

@[simp] theorem mapParticles_particles (s : EngineState)
    (f : Particle → Particle) (k : Nat) :
    (mapParticles s f).particles k =
      if k < s.numParticles then f (s.particles k) else s.particles k := rfl

@[simp] theorem mapParticles_rules (s : EngineState)
    (f : Particle → Particle) : (mapParticles s f).rules = s.rules := rfl

@[simp] theorem mapParticles_options (s : EngineState)
    (f : Particle → Particle) : (mapParticles s f).options = s.options := rfl

@[simp] theorem mapParticles_rng (s : EngineState)
    (f : Particle → Particle) : (mapParticles s f).rng = s.rng := rfl

@[simp] theorem mapParticles_rngIndex (s : EngineState)
    (f : Particle → Particle) :
    (mapParticles s f).rngIndex = s.rngIndex := rfl

/-- Bound on the positional jitter produced by one random sample. -/
theorem rng_offset_bound (r : ℝ) (h0 : 0 ≤ r) (h1 : r < 1) :
    |(r - 0.5) * 10| ≤ 5 := by
  rw [abs_le]
  constructor <;> nlinarith

set_option maxHeartbeats 1600000 in
/-- C5: with two particles of types A and B within collision distance,
both with zero cooldown, and rule(A,B) creating two particles of type C
without destroying the originals, one PhysicsEngine.update returns
exactly 2 spawn requests of type C (not 4, despite the pair being
evaluated once per direction), each positioned within 5 units per axis
of the midpoint of the colliding pair. -/
theorem C5_spawn_two (w h : ℝ) (s : EngineState)
    (hn : s.numParticles = 2)
    (hcd0 : (s.particles 0).collisionCooldown = 0)
    (hcd1 : (s.particles 1).collisionCooldown = 0)
    (innerA innerB : String → Option Rule) (ruleAB : Rule) (ctype : String)
    (hrA : s.rules (s.particles 0).type = some innerA)
    (hrAB : innerA (s.particles 1).type = some ruleAB)
    (hcreate : ruleAB.createParticles = [⟨ctype, 2⟩])
    (hdestroy : ruleAB.destroyOriginals = false)
    (hrB : s.rules (s.particles 1).type = some innerB)
    (hdist : Real.sqrt
        (((s.particles 0).x - (s.particles 1).x) *
          ((s.particles 0).x - (s.particles 1).x) +
         ((s.particles 0).y - (s.particles 1).y) *
          ((s.particles 0).y - (s.particles 1).y)) <
      ((s.particles 0).size + (s.particles 1).size) *
        s.options.collisionDistanceRatio)
    (hrng : ∀ n, 0 ≤ s.rng n ∧ s.rng n < 1) :
    ∃ a1 a2, (PhysicsEngine.update w h s).map
        (fun r => r.2.particlesToAdd) = .ok [a1, a2] ∧
      ∀ a ∈ [a1, a2], a.type = ctype ∧
        |a.x - ((s.particles 0).x + (s.particles 1).x) / 2| ≤ 5 ∧
        |a.y - ((s.particles 0).y + (s.particles 1).y) / 2| ≤ 5 := by
  unfold PhysicsEngine.update
  simp only []
  set s0 : EngineState := mapParticles
    { s with particlesToAdd := [], particlesToRemove := []
             collisionsThisFrame := 0 } Particle.resetForces with hs0
  have hs0p0 : s0.particles 0 = (s.particles 0).resetForces := by
    rw [hs0]
    simp [hn]
  have hs0p1 : s0.particles 1 = (s.particles 1).resetForces := by
    rw [hs0]
    simp [hn]
  have hs0rules : s0.rules = s.rules := by rw [hs0]; rfl
  have hs0opts : s0.options = s.options := by rw [hs0]; rfl
  have hs0num : s0.numParticles = 2 := by rw [hs0]; simpa using hn
  have hs0coll : s0.collisionsThisFrame = 0 := by rw [hs0]; rfl
  have hs0add : s0.particlesToAdd = [] := by rw [hs0]; rfl
  have hs0rng : s0.rng = s.rng := by rw [hs0]; rfl
  have hs0idx : s0.rngIndex = s.rngIndex := by rw [hs0]; rfl
  obtain ⟨f1, hf1⟩ := calculateForce_isOk (s0.particles 0) (s0.particles 1)
    s0.rules s0.options innerA (by rw [hs0rules, hs0p0]; simpa using hrA)
  set s1 : EngineState := setP s0 0 ((s0.particles 0).applyForce f1)
    with hs1
  have hstep1 : calculateParticleInteraction s0 0 1 =
      .ok (checkCollision s1 0 1) := by
    rw [hs1]
    exact interaction_eq s0 0 1 f1 hf1
      (by rw [hs0coll]; norm_num [MAX_COLLISIONS_PER_FRAME])
  have hs1p0 : s1.particles 0 = ((s.particles 0).resetForces).applyForce f1 := by
    rw [hs1]
    simp [setP_particles, hs0p0]
  have hs1p1 : s1.particles 1 = (s.particles 1).resetForces := by
    rw [hs1]
    simp [setP_particles, hs0p1]
  have hs1rules : s1.rules = s.rules := by rw [hs1]; simp [hs0rules]
  have hs1opts : s1.options = s.options := by rw [hs1]; simp [hs0opts]
  have hs1coll : s1.collisionsThisFrame = 0 := by rw [hs1]; simp [hs0coll]
  have hs1add : s1.particlesToAdd = [] := by rw [hs1]; simp [hs0add]
  have hs1rng : s1.rng = s.rng := by rw [hs1]; simp [hs0rng]
  have hs1idx : s1.rngIndex = s.rngIndex := by rw [hs1]; simp [hs0idx]
  have hcheck1 : checkCollision s1 0 1 = processCollision s1 0 1 := by
    apply checkCollision_eq_process
    · rw [hs1p0]; simpa using hcd0
    · rw [hs1p1]; simpa using hcd1
    · rw [hs1p0, hs1p1, hs1opts]
      simpa using hdist
  set sP : EngineState := processCollision s1 0 1 with hsP
  have h1lookup : s1.rules (s1.particles 0).type = some innerA := by
    rw [hs1rules, hs1p0]
    simpa using hrA
  have h2lookup : innerA (s1.particles 1).type = some ruleAB := by
    rw [hs1p1]
    simpa using hrAB
  have hsPrules : sP.rules = s.rules := by
    rw [hsP, (processCollision_preserves s1 0 1).1, hs1rules]
  have hsPopts : sP.options = s.options := by
    rw [hsP, (processCollision_preserves s1 0 1).2.1, hs1opts]
  have htype1 : (sP.particles 1).type = (s.particles 1).type := by
    rw [hsP, ((processCollision_preserves s1 0 1).2.2.2 1).1, hs1p1]
    simp
  have hsPcool1 : (sP.particles 1).collisionCooldown =
      COLLISION_COOLDOWN_FRAMES := by
    rw [hsP, processCollision_cooldown s1 0 1 innerA ruleAB h1lookup
      h2lookup 1]
    simp
  have hsPcoll : sP.collisionsThisFrame = 1 := by
    rw [hsP, processCollision_collisions s1 0 1 innerA ruleAB h1lookup
      h2lookup, hs1coll]
  have hsPadd : sP.particlesToAdd =
      [{ x := ((s.particles 0).x + (s.particles 1).x) / 2 +
            (s.rng s.rngIndex - 0.5) * 10
         y := ((s.particles 0).y + (s.particles 1).y) / 2 +
            (s.rng (s.rngIndex + 1) - 0.5) * 10
         type := ctype
         initialVx := ((s.particles 0).vx + (s.particles 1).vx) / 2 +
            (s.rng (s.rngIndex + 2) - 0.5) * 2
         initialVy := ((s.particles 0).vy + (s.particles 1).vy) / 2 +
            (s.rng (s.rngIndex + 3) - 0.5) * 2 },
       { x := ((s.particles 0).x + (s.particles 1).x) / 2 +
            (s.rng (s.rngIndex + 4) - 0.5) * 10
         y := ((s.particles 0).y + (s.particles 1).y) / 2 +
            (s.rng (s.rngIndex + 4 + 1) - 0.5) * 10
         type := ctype
         initialVx := ((s.particles 0).vx + (s.particles 1).vx) / 2 +
            (s.rng (s.rngIndex + 4 + 2) - 0.5) * 2
         initialVy := ((s.particles 0).vy + (s.particles 1).vy) / 2 +
            (s.rng (s.rngIndex + 4 + 3) - 0.5) * 2 }] := by
    rw [hsP, processCollision_toAdd s1 0 1 innerA ruleAB ctype
      (by norm_num) h1lookup h2lookup hcreate, hs1add, hs1p0, hs1p1,
      hs1rng, hs1idx]
    simp
  obtain ⟨f2, hf2⟩ := calculateForce_isOk (sP.particles 1) (sP.particles 0)
    sP.rules sP.options innerB (by rw [hsPrules, htype1]; exact hrB)
  set s2 : EngineState := setP sP 1 ((sP.particles 1).applyForce f2)
    with hs2
  have hstep2 : calculateParticleInteraction sP 1 0 =
      .ok (checkCollision s2 1 0) := by
    rw [hs2]
    exact interaction_eq sP 1 0 f2 hf2
      (by rw [hsPcoll]; norm_num [MAX_COLLISIONS_PER_FRAME])
  have hskip : checkCollision s2 1 0 = s2 := by
    apply checkCollision_skip
    left
    rw [hs2]
    simp [setP_particles, hsPcool1, COLLISION_COOLDOWN_FRAMES]
  have hs2add : s2.particlesToAdd = sP.particlesToAdd := by
    rw [hs2]
    simp
  have hrun : runInteractions [(0, 1), (1, 0)] s0 = .ok s2 := by
    simp only [runInteractions]
    rw [hstep1]
    simp only []
    rw [hcheck1]
    rw [hstep2]
    simp only []
    rw [hskip]
  rw [hs0num, show bruteForcePairs 2 = [(0, 1), (1, 0)] from rfl, hrun]
  simp only [Except.map, mapParticles_particlesToAdd, hs2add, hsPadd]
  refine ⟨_, _, rfl, ?_⟩
  intro a ha
  simp only [List.mem_cons, List.not_mem_nil, or_false] at ha
  rcases ha with rfl | rfl
  · refine ⟨rfl, ?_, ?_⟩
    · rw [show ((s.particles 0).x + (s.particles 1).x) / 2 +
          (s.rng s.rngIndex - 0.5) * 10 -
          ((s.particles 0).x + (s.particles 1).x) / 2 =
          (s.rng s.rngIndex - 0.5) * 10 by ring]
      exact rng_offset_bound _ (hrng _).1 (hrng _).2
    · rw [show ((s.particles 0).y + (s.particles 1).y) / 2 +
          (s.rng (s.rngIndex + 1) - 0.5) * 10 -
          ((s.particles 0).y + (s.particles 1).y) / 2 =
          (s.rng (s.rngIndex + 1) - 0.5) * 10 by ring]
      exact rng_offset_bound _ (hrng _).1 (hrng _).2
  · refine ⟨rfl, ?_, ?_⟩
    · rw [show ((s.particles 0).x + (s.particles 1).x) / 2 +
          (s.rng (s.rngIndex + 4) - 0.5) * 10 -
          ((s.particles 0).x + (s.particles 1).x) / 2 =
          (s.rng (s.rngIndex + 4) - 0.5) * 10 by ring]
      exact rng_offset_bound _ (hrng _).1 (hrng _).2
    · rw [show ((s.particles 0).y + (s.particles 1).y) / 2 +
          (s.rng (s.rngIndex + 4 + 1) - 0.5) * 10 -
          ((s.particles 0).y + (s.particles 1).y) / 2 =
          (s.rng (s.rngIndex + 4 + 1) - 0.5) * 10 by ring]
      exact rng_offset_bound _ (hrng _).1 (hrng _).2

/-- Rule used by the C5 witness: create two particles of type C, keep
the originals. -/
noncomputable def ruleC5 : Rule :=
  { closeForce := 0, farForce := 0, threshold := 30
    destroyOriginals := false, createParticles := [⟨"C", 2⟩] }

/-- Inner rules entry for source type A in the C5 witness. -/
noncomputable def innerC5A : String → Option Rule := fun u =>
  if u = "B" then some ruleC5 else none

/-- Inner rules entry for source type B in the C5 witness. -/
noncomputable def innerC5B : String → Option Rule := fun _ => none

/-- Rules table of the C5 witness. -/
noncomputable def rulesC5 : Rules := fun t =>
  if t = "A" then some innerC5A else
  if t = "B" then some innerC5B else none

/-- Two default particles of types A and B three units apart, with the
collision rule of ruleC5 and a constant random stream. -/
noncomputable def engineC5 : EngineState :=
  { numParticles := 2
    particles := fun k => if k = 0 then mkParticle 0 0 "A" defaultOptions
      else mkParticle 3 0 "B" defaultOptions
    rules := rulesC5, options := defaultOptions
    collisionsThisFrame := 0, particlesToAdd := [], particlesToRemove := []
    rng := fun _ => 1 / 2, rngIndex := 0 }

/-- Witness for C5 at the concrete two-particle engine. -/
theorem C5_witness :
    ∃ a1 a2, (PhysicsEngine.update 100 100 engineC5).map
        (fun r => r.2.particlesToAdd) = .ok [a1, a2] ∧
      ∀ a ∈ [a1, a2], a.type = "C" ∧
        |a.x - ((engineC5.particles 0).x +
          (engineC5.particles 1).x) / 2| ≤ 5 ∧
        |a.y - ((engineC5.particles 0).y +
          (engineC5.particles 1).y) / 2| ≤ 5 :=
  C5_spawn_two 100 100 engineC5 rfl rfl rfl innerC5A innerC5B ruleC5 "C"
    rfl rfl rfl rfl rfl
    (by
      have h9 : Real.sqrt 9 = 3 := sqrt_eval (by norm_num) (by norm_num)
      norm_num [engineC5, mkParticle, defaultOptions, h9])
    (by
      intro n
      constructor <;> norm_num [engineC5])

/-! ### RuleManager (RuleManager.js)

The history machinery treats the rules table opaquely (deep copies are
identities in a functional model), so the table is an abstract type
parameter.  The timestamp field of history entries (Date.now) is
external bookkeeping and is omitted. -/

/-- One history entry (label and snapshot of the rules table). -/
structure HistoryEntry (α : Type) where
  label : String
  rules : α
deriving DecidableEq

/-- RuleManager state: the active table, the history list, the cursor
(initially -1 in the source, hence an integer), and the history cap. -/
structure RMState (α : Type) where
  rules : α
  ruleHistory : List (HistoryEntry α)
  currentHistoryIndex : Int
  maxHistorySize : Nat
deriving DecidableEq

/-- RuleManager.saveToHistory (lines 438-460): truncate the redo tail
when the cursor is not at the end, push a snapshot, and either drop the
oldest entry (when over the cap, without moving the cursor) or advance
the cursor. -/
def saveToHistory {α : Type} (label : String) (s : RMState α) :
    RMState α :=
  let hist :=
    if s.currentHistoryIndex < (s.ruleHistory.length : Int) - 1 then
      s.ruleHistory.take (s.currentHistoryIndex + 1).toNat
    else s.ruleHistory
  let hist := hist ++ [{ label := label, rules := s.rules }]
  if hist.length > s.maxHistorySize then
    { s with ruleHistory := hist.drop 1 }
  else
    { s with ruleHistory := hist
             currentHistoryIndex := s.currentHistoryIndex + 1 }

/-- RuleManager.undo (lines 466-477).  On the unreachable path where the
decremented cursor points outside the history (the source would throw on
reading .rules of undefined) the table is left unchanged; every state
considered below keeps the cursor inside the history. -/
def undo {α : Type} (s : RMState α) : RMState α × Bool :=
  if 0 < s.currentHistoryIndex then
    match s.ruleHistory.get? (s.currentHistoryIndex - 1).toNat with
    | some historyEntry =>
      ({ s with currentHistoryIndex := s.currentHistoryIndex - 1
                rules := historyEntry.rules }, true)
    | none =>
      ({ s with currentHistoryIndex := s.currentHistoryIndex - 1 }, true)
  else (s, false)

/-- RuleManager.redo (lines 483-494), with the same convention as undo
for the unreachable out-of-history path. -/
def redo {α : Type} (s : RMState α) : RMState α × Bool :=
  if s.currentHistoryIndex < (s.ruleHistory.length : Int) - 1 then
    match s.ruleHistory.get? (s.currentHistoryIndex + 1).toNat with
    | some historyEntry =>
      ({ s with currentHistoryIndex := s.currentHistoryIndex + 1
                rules := historyEntry.rules }, true)
    | none =>
      ({ s with currentHistoryIndex := s.currentHistoryIndex + 1 }, true)
  else (s, false)

/-- Parsed import payload: presence of truthy rules and types fields of
the parsed JSON object. -/
structure ImportData (α : Type) where
  rules : Option α
  types : Option (List String)

/-- RuleManager.importRules (lines 536-554).  The input is the result of
JSON.parse: none models a parse error (caught by the try block).  When
both data.rules and data.types are present, the statement
this.types = data.types assigns to the accessor property types, which
has only a getter; class bodies are strict-mode code, so the assignment
throws a TypeError that the surrounding try catches before this.rules is
ever assigned.  Every path therefore returns false and leaves the rule
table and history unchanged. -/
def importRules {α : Type} (s : RMState α) (input : Option (ImportData α)) :
    RMState α × Bool :=
  match input with
  | none => (s, false)
  | some data =>
    if data.rules.isSome ∧ data.types.isSome then (s, false)
    else (s, false)

/-! ### Claim C7: import replaces wholesale or rejects atomically -/

/-- C7: for every input, importRules rejects the input (returning false)
and retains the prior rule table and history completely unchanged; in
particular malformed data is always rejected with no partial merge.  The
wholesale-replacement branch of the claim's disjunction is unreachable:
assigning the getter-only types property throws inside the try block
before the rules assignment. -/
theorem C7_import_atomic (α : Type) (s : RMState α)
    (input : Option (ImportData α)) : importRules s input = (s, false) := by
  unfold importRules
  rcases input with _ | data
  · rfl
  · simp

/-! ### Claim C8: undo and redo through the history cursor -/

set_option maxHeartbeats 1600000 in
/-- C8 (amended): with at least two history entries, the cursor past the
start and within the history, undo succeeds, a subsequent redo succeeds
and restores the table to the history entry at the original cursor (so
undo-then-redo is the identity on the table exactly when the table
matched that entry, as it does right after a save); and saving a new
state after an undo truncates the history after the cursor, so redo then
returns false. -/
theorem C8_undo_redo_amended (α : Type) (s : RMState α)
    (h2 : 2 ≤ s.ruleHistory.length)
    (hpos : 0 < s.currentHistoryIndex)
    (hub : s.currentHistoryIndex ≤ (s.ruleHistory.length : Int) - 1)
    (hmax : s.ruleHistory.length ≤ s.maxHistorySize) :
    (undo s).2 = true ∧
    (redo (undo s).1).2 = true ∧
    (∀ entry, s.ruleHistory.get? s.currentHistoryIndex.toNat = some entry →
      (redo (undo s).1).1.rules = entry.rules ∧
      (s.rules = entry.rules → (redo (undo s).1).1.rules = s.rules)) ∧
    (∀ label, (redo (saveToHistory label (undo s).1)).2 = false) := by
  have hidx : s.currentHistoryIndex - 1 + 1 = s.currentHistoryIndex := by
    omega
  have hu : (undo s).2 = true ∧
      (undo s).1.ruleHistory = s.ruleHistory ∧
      (undo s).1.currentHistoryIndex = s.currentHistoryIndex - 1 ∧
      (undo s).1.maxHistorySize = s.maxHistorySize := by
    unfold undo
    rw [if_pos hpos]
    rcases hget : s.ruleHistory.get? ((s.currentHistoryIndex - 1).toNat)
      with _ | e <;> exact ⟨rfl, rfl, rfl, rfl⟩
  obtain ⟨hub1, huh, hui, hum⟩ := hu
  have hredo_cond : (undo s).1.currentHistoryIndex <
      ((undo s).1.ruleHistory.length : Int) - 1 := by
    rw [huh, hui]
    omega
  refine ⟨hub1, ?_, ?_, ?_⟩
  · unfold redo
    rw [if_pos hredo_cond, huh, hui, hidx]
    rcases hget : s.ruleHistory.get? (s.currentHistoryIndex.toNat)
      with _ | e <;> rfl
  · intro entry hentry
    have hrr : (redo (undo s).1).1.rules = entry.rules := by
      unfold redo
      rw [if_pos hredo_cond, huh, hui, hidx, hentry]
    exact ⟨hrr, fun hse => by rw [hrr, ← hse]⟩
  · intro label
    have hsave_cond : (undo s).1.currentHistoryIndex <
        ((undo s).1.ruleHistory.length : Int) - 1 := hredo_cond
    have htoNat : ((undo s).1.currentHistoryIndex + 1).toNat =
        s.currentHistoryIndex.toNat := by
      rw [hui]
      omega
    have htake : ((undo s).1.ruleHistory.take
        s.currentHistoryIndex.toNat).length = s.currentHistoryIndex.toNat := by
      rw [huh, List.length_take]
      omega
    have hlen : (((undo s).1.ruleHistory.take s.currentHistoryIndex.toNat) ++
        [({ label := label, rules := (undo s).1.rules } :
          HistoryEntry α)]).length = s.currentHistoryIndex.toNat + 1 := by
      rw [List.length_append, htake]
      rfl
    have hnoshift : ¬ (((undo s).1.ruleHistory.take
        s.currentHistoryIndex.toNat) ++
        [({ label := label, rules := (undo s).1.rules } :
          HistoryEntry α)]).length > (undo s).1.maxHistorySize := by
      rw [hlen, hum]
      omega
    have hsave : saveToHistory label (undo s).1 =
        { (undo s).1 with
          ruleHistory := ((undo s).1.ruleHistory.take
            s.currentHistoryIndex.toNat) ++
            [{ label := label, rules := (undo s).1.rules }]
          currentHistoryIndex := (undo s).1.currentHistoryIndex + 1 } := by
      unfold saveToHistory
      rw [if_pos hsave_cond, htoNat, if_neg hnoshift]
    rw [hsave]
    unfold redo
    rw [if_neg]
    simp only [hlen, hui]
    omega

/-- A RuleManager state whose table was mutated after the last save:
rules 5, history snapshots 3 and 4, cursor at the second entry. -/
def rmC8 : RMState Nat :=
  { rules := 5, ruleHistory := [⟨"a", 3⟩, ⟨"b", 4⟩]
    currentHistoryIndex := 1, maxHistorySize := 50 }

/-- C8 as stated is false: undo then redo succeeds but restores the
history snapshot 4, not the pre-undo table value 5 (the table had been
mutated without saving, as setForceRule does). -/
theorem C8_counterexample :
    (undo rmC8).2 = true ∧ (redo (undo rmC8).1).2 = true ∧
    (redo (undo rmC8).1).1.rules ≠ rmC8.rules := by decide

/-- A state matching its cursor entry, for the C8 witness. -/
def rmC8w : RMState Nat :=
  { rules := 4, ruleHistory := [⟨"a", 3⟩, ⟨"b", 4⟩]
    currentHistoryIndex := 1, maxHistorySize := 50 }

/-- Witness for the amended C8 at a concrete state. -/
theorem C8_witness :
    (undo rmC8w).2 = true ∧
    (redo (undo rmC8w).1).2 = true ∧
    (∀ entry, rmC8w.ruleHistory.get? rmC8w.currentHistoryIndex.toNat =
        some entry →
      (redo (undo rmC8w).1).1.rules = entry.rules ∧
      (rmC8w.rules = entry.rules →
        (redo (undo rmC8w).1).1.rules = rmC8w.rules)) ∧
    (∀ label, (redo (saveToHistory label (undo rmC8w).1)).2 = false) :=
  C8_undo_redo_amended Nat rmC8w (by decide) (by decide) (by decide)
    (by decide)

/-! ### ParticlePool (ParticlePool.js)

The pool is modelled at the level of particle identities (the reset of a
particle's fields on acquire and release does not affect the counters the
claim is about).  Particles are identified by numbers; nextId supplies
identities for fallback allocations. -/

/-- CONFIG.PARTICLE_COUNT_PER_TYPE (Config.js). -/
def PARTICLE_COUNT_PER_TYPE : Nat := 200

/-- CONFIG.MAX_TOTAL_PARTICLES (Config.js). -/
def MAX_TOTAL_PARTICLES : Nat := 7000

/-- CONFIG.MIN_POOL_SIZE (Config.js). -/
def MIN_POOL_SIZE : Nat := 5000

/-- ParticlePool state after initialization: the free list, the sizes,
and the stats counters (currentActive is an integer, since the source
decrements it without a floor). -/
structure PoolState where
  pool : List Nat
  poolSize : Nat
  maxPoolSize : Nat
  totalCreated : Nat
  totalRecycled : Nat
  peakUsage : Int
  currentActive : Int
  nextId : Nat
deriving DecidableEq

/-- ParticlePool.initialize (lines 28-55) on the default path (initial
size not supplied): preallocate typeCount * PARTICLE_COUNT_PER_TYPE plus
the buffer max(MIN_POOL_SIZE, that), with maxPoolSize fixed by the
constructor as MAX_TOTAL_PARTICLES + MIN_POOL_SIZE. -/
def initializePool (nTypes : Nat) : PoolState :=
  let totalParticles := nTypes * PARTICLE_COUNT_PER_TYPE
  let poolBuffer := max MIN_POOL_SIZE totalParticles
  let poolSize := totalParticles + poolBuffer
  { pool := List.range poolSize
    poolSize := poolSize
    maxPoolSize := MAX_TOTAL_PARTICLES + MIN_POOL_SIZE
    totalCreated := 0, totalRecycled := 0
    peakUsage := 0, currentActive := 0
    nextId := poolSize }

/-- ParticlePool.getParticle (lines 67-94) for an initialized pool: pop
the last free particle (or allocate a fresh one when the free list is
empty), bump currentActive and the peak. -/
def getParticle (s : PoolState) : PoolState × Nat :=
  match s.pool.getLast? with
  | none =>
    ({ s with totalCreated := s.totalCreated + 1
              currentActive := s.currentActive + 1
              peakUsage := max s.peakUsage (s.currentActive + 1)
              nextId := s.nextId + 1 }, s.nextId)
  | some p =>
    ({ s with pool := s.pool.dropLast
              totalRecycled := s.totalRecycled + 1
              currentActive := s.currentActive + 1
              peakUsage := max s.peakUsage (s.currentActive + 1) }, p)

/-- ParticlePool.returnParticle (lines 100-123) for an initialized pool:
discard when the free list is at maxPoolSize, otherwise push the
particle back and decrement currentActive (with no check that the
particle was ever acquired). -/
def returnParticle (s : PoolState) (p : Nat) : PoolState :=
  if s.pool.length ≥ s.maxPoolSize then s
  else { s with pool := s.pool ++ [p]
                currentActive := s.currentActive - 1 }

/-- A pool call: acquire, or return a given particle. -/
inductive PoolOp where
  | get
  | ret (p : Nat)
deriving DecidableEq

/-- Run a sequence of pool calls. -/
def runPool : PoolState → List PoolOp → PoolState
  | s, [] => s
  | s, .get :: rest => runPool (getParticle s).1 rest
  | s, .ret p :: rest => runPool (returnParticle s p) rest

/-- Number of getParticle calls in a call sequence. -/
def countGets : List PoolOp → Nat
  | [] => 0
  | .get :: rest => countGets rest + 1
  | .ret _ :: rest => countGets rest

/-- Number of returnParticle calls in a call sequence. -/
def countRets : List PoolOp → Nat
  | [] => 0
  | .get :: rest => countRets rest
  | .ret _ :: rest => countRets rest + 1

/-! ### Claim C9: the active count stays nonnegative -/

/-- Running the pool can lower currentActive by at most one per
returnParticle call, and raises it by one per getParticle call. -/
theorem runPool_active_bound : ∀ (ops : List PoolOp) (s : PoolState),
    s.currentActive + countGets ops - countRets ops ≤
      (runPool s ops).currentActive := by
  intro ops
  induction ops with
  | nil => intro s; simp [runPool, countGets, countRets]
  | cons op rest ih =>
    intro s
    cases op with
    | get =>
      have hstep : ((getParticle s).1).currentActive =
          s.currentActive + 1 := by
        unfold getParticle
        rcases s.pool.getLast? with _ | p <;> rfl
      have := ih (getParticle s).1
      rw [hstep] at this
      simp only [runPool, countGets, countRets]
      omega
    | ret p =>
      have hstep : s.currentActive - 1 ≤
          (returnParticle s p).currentActive := by
        unfold returnParticle
        split <;> simp
      have := ih (returnParticle s p)
      simp only [runPool, countGets, countRets]
      omega

/-- C9 (amended): for an initialized pool, after any call sequence in
which returnParticle calls never outnumber getParticle calls (every
return matched by a prior acquire), the reported active count is
nonnegative.  An unmatched return (a particle never acquired, or
returned twice) while the free list is below maxPoolSize drives the
count negative. -/
theorem C9_active_count_amended (ops : List PoolOp) (nTypes : Nat)
    (hbal : countRets ops ≤ countGets ops) :
    0 ≤ (runPool (initializePool nTypes) ops).currentActive := by
  have hb := runPool_active_bound ops (initializePool nTypes)
  have hz : (initializePool nTypes).currentActive = 0 := rfl
  rw [hz] at hb
  omega

/-- C9 as stated is false: returning a single never-acquired particle to
a freshly initialized pool (eight types, free list 6600 < maxPoolSize
12000) makes stats.currentActive equal to -1. -/
theorem C9_counterexample :
    (runPool (initializePool 8) [.ret 99]).currentActive < 0 := by
  have hlen : (initializePool 8).pool.length = 6600 := by
    simp [initializePool, List.length_range, PARTICLE_COUNT_PER_TYPE,
      MIN_POOL_SIZE]
  have hmax : (initializePool 8).maxPoolSize = 12000 := rfl
  simp only [runPool, returnParticle]
  rw [if_neg (by rw [hlen, hmax]; omega)]
  have : (initializePool 8).currentActive = 0 := rfl
  simp [this]

/-- Witness for the amended C9: one acquire followed by one return. -/
theorem C9_witness :
    0 ≤ (runPool (initializePool 8) [.get, .ret 5]).currentActive :=
  C9_active_count_amended [.get, .ret 5] 8 (by decide)

/-- Witness for the amended C6 at concrete particles and rules. -/
theorem C6_witness :
    (calculateForce pC6a pC6b rulesC6 defaultOptions).isOk = true ∧
    calculateForce pC6a pC6b rulesC6 defaultOptions =
      calculateForce pC6a pC6b
        (fun t => if t = pC6a.type then
            some (fun u => if u = pC6b.type then some fallbackRule
              else (fun _ => none : String → Option Rule) u)
          else rulesC6 t) defaultOptions :=
  C6_missing_rule_neutral_amended pC6a pC6b rulesC6 defaultOptions
    (fun _ => none) rfl rfl

end ALife
